import Mathlib

/-!
Verification of the account/provider registry of `src/src/main/settings.ts`
(`SettingsManager`).

Modelling conventions, used throughout:

* JS strings are modelled as `Str := List Nat`, the sequence of character
  codes.  Every string constant that the registry code compares or stores is
  ASCII, so these codes coincide with the UTF-8 bytes that
  `Buffer.from(s, 'utf-8')` produces; the byte view is what the Base64
  codec (`encodeData`/`decodeData`) operates on.  `[]` is the empty string.
* A JS value that may be `undefined` (an optional field) is an `Option`;
  a missing JSON object key is `none`.  Where the source only ever observes
  a field through truthiness (`if (x)`, `x || y`), `''` and `undefined`
  behave identically and the field is modelled as a plain `Str` with `[]`
  for "absent".
* `EventEmitter` notifications, file I/O and JSON parsing are outside the
  model: `exportSettings` is modelled as producing the parsed document and
  `importSettings` as consuming one.  The human-readable strings pushed to
  the `imported` list are modelled as structured labels carrying the same
  information (section + counts).
* `electron-store` is modelled by threading an explicit `AppSettings`
  value through every operation; `store.set` is a functional update.
-/

namespace SettingsTs

/-- JS strings, as their character-code (= UTF-8 byte, all constants being
ASCII) sequences. -/
abbrev Str := List Nat

/-- Character codes of a Lean string literal (used for the ASCII constants
appearing in `settings.ts`). -/
def strOf (s : String) : Str := s.data.map Char.toNat

/-- JS truthiness of a possibly-`undefined` string: `undefined` and `''`
are falsy, every other string is truthy. -/
def jsTruthyOpt : Option Str → Bool
  | some s => !s.isEmpty
  | none => false

/-- JS truthiness of a string value. -/
def jsTruthy (s : Str) : Bool := !s.isEmpty

/-- JS `a || b` on possibly-`undefined` strings. -/
def jsOrOpt (a b : Option Str) : Option Str := if jsTruthyOpt a then a else b

/-! ## The Base64 codec behind `encodeData` / `decodeData`

`encodeData` is `Buffer.from(data, 'utf-8').toString('base64')` (standard
Base64 with `=` padding); `decodeData` is
`Buffer.from(encodedData, 'base64').toString('utf-8')`.  Node's Base64
decoder never throws: it accepts both the standard alphabet and the RFC
4648 URL-safe alphabet (`-` as 62, `_` as 63), skips characters outside
either alphabet, stops decoding at the first `=`, and decodes the
accumulated 6-bit groups, dropping a trailing group of fewer than 8 bits.
The `try/catch` in `decodeData` is therefore never triggered by
`Buffer.from`; the model below reflects the lenient decoder. -/

/-- The Base64 alphabet: 6-bit value to character code. -/
def valToCode (v : Nat) : Nat :=
  if v < 26 then 65 + v
  else if v < 52 then 97 + (v - 26)
  else if v < 62 then 48 + (v - 52)
  else if v = 62 then 43
  else 47

/-- Character code to 6-bit value.  Node's decoder accepts the standard
alphabet and the URL-safe alphabet (`-`, code 45, as 62 and `_`, code 95,
as 63); `none` for every other character, which the decoder skips. -/
def codeToVal (c : Nat) : Option Nat :=
  if 65 ≤ c ∧ c ≤ 90 then some (c - 65)
  else if 97 ≤ c ∧ c ≤ 122 then some (26 + (c - 97))
  else if 48 ≤ c ∧ c ≤ 57 then some (52 + (c - 48))
  else if c = 43 ∨ c = 45 then some 62
  else if c = 47 ∨ c = 95 then some 63
  else none

/-- Base64-encode a byte sequence, with `=` padding (character code 61),
as `Buffer.toString('base64')` does. -/
def encBytes : List Nat → List Nat
  | b1 :: b2 :: b3 :: rest =>
      valToCode (b1 / 4) :: valToCode ((b1 % 4) * 16 + b2 / 16) ::
      valToCode ((b2 % 16) * 4 + b3 / 64) :: valToCode (b3 % 64) :: encBytes rest
  | [b1, b2] =>
      [valToCode (b1 / 4), valToCode ((b1 % 4) * 16 + b2 / 16),
       valToCode ((b2 % 16) * 4), 61]
  | [b1] => [valToCode (b1 / 4), valToCode ((b1 % 4) * 16), 61, 61]
  | [] => []

/-- Decode a sequence of 6-bit values into bytes; a trailing group of one
value (fewer than 8 bits) is dropped, as in Node's decoder. -/
def decGroups : List Nat → List Nat
  | a :: b :: c :: d :: rest =>
      (a * 4 + b / 16) :: ((b % 16) * 16 + c / 4) :: ((c % 4) * 64 + d) :: decGroups rest
  | [a, b, c] => [a * 4 + b / 16, (b % 16) * 16 + c / 4]
  | [a, b] => [a * 4 + b / 16]
  | _ => []

/-- `SettingsManager.encodeData`: `''` maps to `''`, otherwise Base64 of
the UTF-8 bytes. -/
def encodeData (data : Str) : Str :=
  if data.isEmpty then [] else encBytes data

/-- `SettingsManager.decodeData`: `''` maps to `''`, otherwise Node's
lenient Base64 decode — decoding stops at the first `=` (code 61),
characters outside the standard and URL-safe alphabets are skipped, and a
trailing partial group is dropped.  `Buffer.from(string, 'base64')` never
throws, so the `catch` branch of the source is unreachable and the
function is total. -/
def decodeData (encodedData : Str) : Str :=
  if encodedData.isEmpty then []
  else decGroups ((encodedData.takeWhile (fun c => c ≠ 61)).filterMap codeToVal)

/-- A byte sequence (every element below 256); the image of a JS string
under UTF-8. -/
def allBytes (s : Str) : Prop := ∀ b ∈ s, b < 256

instance : DecidablePred allBytes := fun s =>
  inferInstanceAs (Decidable (∀ b ∈ s, b < 256))

/-! ## The data model of `settings.ts` -/

/-- `interface ClaudeAccount` (an official account). -/
structure ClaudeAccount where
  accountUuid : Str
  emailAddress : Str
  organizationUuid : Str
  organizationRole : Str
  workspaceRole : Option Str
  organizationName : Str
  authorization : Option Str
deriving Repr, DecidableEq

/-- `interface ThirdPartyAccount`. -/
structure ThirdPartyAccount where
  id : Str
  name : Str
  apiKey : Str
  baseUrl : Str
  description : Option Str
deriving Repr, DecidableEq

/-- `type ProviderType = 'claude_official' | 'third_party'`. -/
inductive ProviderType where
  | claude_official
  | third_party
deriving Repr, DecidableEq

/-- A runtime element of `ServiceProvider.accounts`
(`ClaudeAccount[] | ThirdPartyAccount[]`); the source casts the array and
reads variant-specific fields, which are `undefined` on the other
variant. -/
inductive Account where
  | official (a : ClaudeAccount)
  | thirdParty (a : ThirdPartyAccount)
deriving Repr, DecidableEq

/-- JS `acc.emailAddress` on an accounts element (`undefined` on a
third-party record). -/
def Account.emailAddressF : Account → Option Str
  | .official a => some a.emailAddress
  | .thirdParty _ => none

/-- JS `acc.id` on an accounts element (`undefined` on an official
record). -/
def Account.idF : Account → Option Str
  | .official _ => none
  | .thirdParty a => some a.id

/-- JS `acc.authorization` on an accounts element. -/
def Account.authorizationF : Account → Option Str
  | .official a => a.authorization
  | .thirdParty _ => none

/-- `interface ServiceProvider`. -/
structure ServiceProvider where
  id : Str
  type : ProviderType
  name : Str
  accounts : List Account
  activeAccountId : Str
  useProxy : Bool
deriving Repr, DecidableEq

/-- `proxyConfig.auth`. -/
structure ProxyAuth where
  username : Str
  password : Str
deriving Repr, DecidableEq

/-- `AppSettings['proxyConfig']`. -/
structure ProxyConfig where
  enabled : Bool
  url : Str
  auth : Option ProxyAuth
deriving Repr, DecidableEq

/-- `AppSettings['terminal']`. -/
structure TerminalConfig where
  fontSize : Nat
  fontFamily : Str
  theme : Str
  skipPermissions : Bool
deriving Repr, DecidableEq

/-- `AppSettings['projectFilter']`. -/
structure ProjectFilterConfig where
  hiddenDirectories : List Str
deriving Repr, DecidableEq

/-- The persisted settings state (`interface AppSettings`); the deprecated
`apiProviders`/`activeProviderId` pair is untouched by every operation the
claims concern and is omitted. -/
structure AppSettings where
  proxyConfig : ProxyConfig
  serviceProviders : List ServiceProvider
  activeServiceProviderId : Str
  terminal : TerminalConfig
  projectFilter : ProjectFilterConfig
deriving Repr, DecidableEq

/-- `'claude_official'`. -/
def claudeOfficialId : Str := strOf "claude_official"

/-- `'Claude Official'`. -/
def claudeOfficialName : Str := strOf "Claude Official"

/-- `defaultSettings` of `settings.ts`. -/
def defaultSettings : AppSettings :=
  { proxyConfig := { enabled := false, url := strOf "http://127.0.0.1:1087", auth := none }
    serviceProviders := []
    activeServiceProviderId := []
    terminal :=
      { fontSize := 14
        fontFamily := strOf "Monaco, Consolas, monospace"
        theme := strOf "dark"
        skipPermissions := true }
    projectFilter :=
      { hiddenDirectories :=
          [strOf ".git", strOf ".svn", strOf ".hg", strOf "node_modules",
           strOf ".DS_Store", strOf ".vscode", strOf ".idea", strOf "dist",
           strOf "build", strOf ".next", strOf ".nuxt", strOf "coverage",
           strOf ".nyc_output", strOf "tmp", strOf "temp", strOf ".cache",
           strOf ".parcel-cache", strOf ".env.local",
           strOf ".env.development.local", strOf ".env.test.local",
           strOf ".env.production.local"] } }

/-! ## The mutators (`SettingsManager` methods)

Each method reads the store, computes, writes back and emits an event; the
model is the state transformer. -/

/-- `providers.findIndex(p => p.id === provider.id)` followed by
replace-at-index or `push`: replace the first provider with the same id,
or append. -/
def upsertById : List ServiceProvider → ServiceProvider → List ServiceProvider
  | [], provider => [provider]
  | p :: rest, provider =>
      if p.id = provider.id then provider :: rest
      else p :: upsertById rest provider

/-- `SettingsManager.addServiceProvider`. -/
def addServiceProvider (s : AppSettings) (provider : ServiceProvider) : AppSettings :=
  { s with serviceProviders := upsertById s.serviceProviders provider }

/-- `SettingsManager.removeServiceProvider`. -/
def removeServiceProvider (s : AppSettings) (providerId : Str) : AppSettings :=
  let providers := s.serviceProviders.filter (fun p => p.id ≠ providerId)
  let active :=
    if s.activeServiceProviderId = providerId then [] else s.activeServiceProviderId
  { s with serviceProviders := providers, activeServiceProviderId := active }

/-- `SettingsManager.setActiveServiceProvider` (the spec's
`setActiveProvider`): unconditional pointer update. -/
def setActiveServiceProvider (s : AppSettings) (providerId : Str) : AppSettings :=
  { s with activeServiceProviderId := providerId }

/-- `providers.find(p => p.type === 'claude_official')`. -/
def findOfficial (s : AppSettings) : Option ServiceProvider :=
  s.serviceProviders.find? (fun p => p.type = ProviderType.claude_official)

/-- `providers.find(p => p.id === providerId)`. -/
def findProviderById (s : AppSettings) (providerId : Str) : Option ServiceProvider :=
  s.serviceProviders.find? (fun p => p.id = providerId)

/-- The provider created by `updateClaudeAccounts` when no
`claude_official`-typed provider exists. -/
def freshClaudeProvider : ServiceProvider :=
  { id := claudeOfficialId
    type := ProviderType.claude_official
    name := claudeOfficialName
    accounts := []
    activeAccountId := []
    useProxy := true }

/-- The body of the `accounts.forEach(newAccount => ...)` loop of
`updateClaudeAccounts`: find the first existing element whose
`emailAddress` equals the incoming account's, replace it with the incoming
record while keeping a truthy existing `authorization`
(`existing.authorization || newAccount.authorization`); if none matches,
push the incoming account. -/
def mergeClaudeStep : List Account → ClaudeAccount → List Account
  | [], newAccount => [.official newAccount]
  | a :: rest, newAccount =>
      if a.emailAddressF = some newAccount.emailAddress then
        .official { newAccount with
          authorization := jsOrOpt a.authorizationF newAccount.authorization } :: rest
      else a :: mergeClaudeStep rest newAccount

/-- The `claude_official` provider as rebuilt by `updateClaudeAccounts`:
merged account list, and active pointer kept only when it appears among
the *incoming* accounts, else reset to the first incoming email or
cleared. -/
def mergedClaudeProvider (s : AppSettings) (accounts : List ClaudeAccount) : ServiceProvider :=
  { (findOfficial s).getD freshClaudeProvider with
    accounts :=
      accounts.foldl mergeClaudeStep ((findOfficial s).getD freshClaudeProvider).accounts
    activeAccountId :=
      if (accounts.find? (fun acc =>
            acc.emailAddress
              = ((findOfficial s).getD freshClaudeProvider).activeAccountId)).isSome
      then ((findOfficial s).getD freshClaudeProvider).activeAccountId
      else match accounts with
        | [] => []
        | acc :: _ => acc.emailAddress }

/-- `SettingsManager.updateClaudeAccounts` (the spec's
`mergeOfficialAccounts`). -/
def updateClaudeAccounts (s : AppSettings) (accounts : List ClaudeAccount) : AppSettings :=
  addServiceProvider s (mergedClaudeProvider s accounts)

/-- `accounts.findIndex(acc => acc.id === account.id)` followed by
replace-at-index or `push`, inside `addThirdPartyAccount`. -/
def upsertTpById : List Account → ThirdPartyAccount → List Account
  | [], account => [.thirdParty account]
  | a :: rest, account =>
      if a.idF = some account.id then .thirdParty account :: rest
      else a :: upsertTpById rest account

/-- `SettingsManager.addThirdPartyAccount` (the spec's
`upsertThirdPartyAccount`): locate-or-create the provider by id, upsert
the account by id, then set the first account active when no account was
active.  `accounts[0].id` on an official-variant first element is
`undefined` in JS; it is modelled as `''` (both are falsy everywhere the
field is read). -/
def addThirdPartyAccount (s : AppSettings) (providerId : Str)
    (account : ThirdPartyAccount) : AppSettings :=
  let provider := (findProviderById s providerId).getD
    { id := providerId
      type := ProviderType.third_party
      name := account.name
      accounts := []
      activeAccountId := []
      useProxy := true }
  let accounts := upsertTpById provider.accounts account
  let active :=
    if provider.activeAccountId = [] ∧ accounts ≠ [] then
      match accounts with
      | [] => provider.activeAccountId
      | a :: _ => a.idF.getD []
    else provider.activeAccountId
  addServiceProvider s { provider with accounts := accounts, activeAccountId := active }

/-- `SettingsManager.removeThirdPartyAccount`. -/
def removeThirdPartyAccount (s : AppSettings) (providerId accountId : Str) : AppSettings :=
  match findProviderById s providerId with
  | none => s
  | some provider =>
      let accounts := provider.accounts.filter (fun acc => acc.idF ≠ some accountId)
      let active :=
        if provider.activeAccountId = accountId then
          match accounts with
          | [] => []
          | a :: _ => a.idF.getD []
        else provider.activeAccountId
      addServiceProvider s { provider with accounts := accounts, activeAccountId := active }

/-- `SettingsManager.setActiveAccount`: sets the named provider's active
account pointer unconditionally (no membership check) and promotes the
provider to the globally active one. -/
def setActiveAccount (s : AppSettings) (providerId accountId : Str) : AppSettings :=
  match findProviderById s providerId with
  | none => s
  | some provider =>
      let s' := addServiceProvider s { provider with activeAccountId := accountId }
      setActiveServiceProvider s' providerId

/-- `SettingsManager.setProviderProxyUsage`. -/
def setProviderProxyUsage (s : AppSettings) (providerId : Str) (useProxy : Bool) : AppSettings :=
  match findProviderById s providerId with
  | none => s
  | some provider => addServiceProvider s { provider with useProxy := useProxy }

/-- Replace the `authorization` of the first official account with the
given email (`accounts.find(acc => acc.emailAddress === emailAddress)`,
mutated in place). -/
def setAuthByEmailFirst : List Account → Str → Str → List Account
  | [], _, _ => []
  | a :: rest, email, auth =>
      if a.emailAddressF = some email then
        (match a with
          | .official c => Account.official { c with authorization := some auth }
          | .thirdParty t => Account.thirdParty t) :: rest
      else a :: setAuthByEmailFirst rest email auth

/-- `SettingsManager.updateClaudeAccountAuthorization` (the spec's
`updateOfficialCredential`): no-op when the provider or the account is
absent. -/
def updateClaudeAccountAuthorization (s : AppSettings) (emailAddress auth : Str) : AppSettings :=
  match findOfficial s with
  | none => s
  | some claudeProvider =>
      if (claudeProvider.accounts.find?
            (fun acc => acc.emailAddressF = some emailAddress)).isSome then
        addServiceProvider s
          { claudeProvider with
            accounts := setAuthByEmailFirst claudeProvider.accounts emailAddress auth }
      else s

/-! ## Lemmas about the official-account merge -/

/-- The official provider's account list (empty when no official provider
exists, matching the freshly created provider). -/
def officialAccountsOf (s : AppSettings) : List Account :=
  ((findOfficial s).getD freshClaudeProvider).accounts

/-! ## Concrete fixtures for counterexamples and witnesses -/

/-- An official account with a stored credential `"T"`. -/
def accT : ClaudeAccount :=
  { accountUuid := strOf "uuid-1"
    emailAddress := strOf "a@x.com"
    organizationUuid := strOf "org-uuid"
    organizationRole := strOf "admin"
    workspaceRole := none
    organizationName := strOf "Org"
    authorization := some (strOf "T") }

/-- The same identity re-detected with updated role and a fresh non-empty
credential `"U"`. -/
def accU : ClaudeAccount :=
  { accT with organizationRole := strOf "member", authorization := some (strOf "U") }

/-- An official account with a different email and no credential. -/
def accB : ClaudeAccount :=
  { accT with emailAddress := strOf "b@x.com", authorization := none }

/-- A third-party account fixture. -/
def tpAcc1 : ThirdPartyAccount :=
  { id := strOf "k1"
    name := strOf "TP One"
    apiKey := strOf "KEY1"
    baseUrl := strOf "https://api.example"
    description := none }

/-! ## The import/export document model

`exportSettings` serializes to JSON; `importSettings` parses and consumes
the document.  File I/O and `JSON.parse` are outside the model: export
produces the parsed document value, import consumes one.  A JSON object in
an `accounts` array is read field-by-field through the shape chosen by the
provider's declared `type`; `AccountDoc` carries both shapes.  A missing
string key is modelled as `''` wherever the source only tests truthiness
or copies the value onward (the two are indistinguishable there), and as
`none` for `workspaceRole`, which is copied verbatim and may be `null`. -/

/-- One element of a document provider's `accounts` array. -/
structure AccountDoc where
  accountUuid : Str
  emailAddress : Str
  organizationUuid : Str
  organizationRole : Str
  workspaceRole : Option Str
  organizationName : Str
  authorization : Str
  id : Str
  name : Str
  baseUrl : Str
  description : Str
  apiKey : Str
deriving Repr, DecidableEq

/-- One element of the document's `serviceProviders` array. -/
structure ProviderDoc where
  id : Str
  type : ProviderType
  name : Str
  useProxy : Bool
  activeAccountId : Str
  accounts : Option (List AccountDoc)
deriving Repr, DecidableEq

/-- The document's `proxyConfig.auth`. -/
structure ProxyAuthDoc where
  username : Str
  password : Str
deriving Repr, DecidableEq

/-- The document's `proxyConfig` section. -/
structure ProxyConfigDoc where
  enabled : Bool
  url : Str
  auth : Option ProxyAuthDoc
deriving Repr, DecidableEq

/-- The document's `settings` object. -/
structure SettingsDoc where
  proxyConfig : Option ProxyConfigDoc
  terminal : Option TerminalConfig
  projectFilter : Option ProjectFilterConfig
  serviceProviders : Option (List ProviderDoc)
deriving Repr, DecidableEq

/-- The export/import document (the unread `timestamp` is dropped).
`includeSensitiveData` is only ever compared with `=== true`, so any
other JSON value behaves as `false`. -/
structure ImportDoc where
  version : Option Str
  includeSensitiveData : Bool
  settings : Option SettingsDoc
deriving Repr, DecidableEq

/-- An entry of the `imported` list returned by `importSettings`,
modelling the human-readable message by its content: the section it names
and, for the accounts message, the counts it interpolates. -/
inductive ImportLabel where
  | proxySection (withAuthSuffix : Bool)
  | terminalSection
  | projectFilterSection
  | accountsSection (count : Nat) (sensitiveCount : Option Nat)
deriving Repr, DecidableEq

/-- The error of a structured import failure (`'配置文件格式无效'`). -/
inductive ImportError where
  | invalidFormat
deriving Repr, DecidableEq

/-- The structured result of `importSettings`. -/
structure ImportResult where
  success : Bool
  error : Option ImportError
  imported : Option (List ImportLabel)
deriving Repr, DecidableEq

/-- An accounts-array element with every key absent (the serialization of
a record whose fields are all `undefined`). -/
def emptyAccountDoc : AccountDoc :=
  { accountUuid := [], emailAddress := [], organizationUuid := []
    organizationRole := [], workspaceRole := none, organizationName := []
    authorization := [], id := [], name := [], baseUrl := []
    description := [], apiKey := [] }

/-- `exportSettings`, `claude_official` branch, per-account document; the
credential is written (obfuscated) only when sensitive data is included
and the stored credential is truthy.  A third-party record reached through
this branch serializes with every key absent. -/
def exportOfficialAccountDoc (includeSensitiveData : Bool) (a : Account) : AccountDoc :=
  match a with
  | .official c =>
      { emptyAccountDoc with
        accountUuid := c.accountUuid
        emailAddress := c.emailAddress
        organizationUuid := c.organizationUuid
        organizationRole := c.organizationRole
        workspaceRole := c.workspaceRole
        organizationName := c.organizationName
        authorization :=
          if includeSensitiveData ∧ jsTruthyOpt c.authorization
          then encodeData (c.authorization.getD []) else [] }
  | .thirdParty _ => emptyAccountDoc

/-- `exportSettings`, `third_party` branch, per-account document. -/
def exportThirdAccountDoc (includeSensitiveData : Bool) (a : Account) : AccountDoc :=
  match a with
  | .thirdParty t =>
      { emptyAccountDoc with
        id := t.id
        name := t.name
        baseUrl := t.baseUrl
        description := t.description.getD []
        apiKey :=
          if includeSensitiveData ∧ jsTruthy t.apiKey
          then encodeData t.apiKey else [] }
  | .official _ => emptyAccountDoc

/-- `exportSettings`, per-provider document. -/
def exportProviderDoc (includeSensitiveData : Bool) (p : ServiceProvider) : ProviderDoc :=
  { id := p.id
    type := p.type
    name := p.name
    useProxy := p.useProxy
    activeAccountId := p.activeAccountId
    accounts := some (match p.type with
      | ProviderType.claude_official =>
          p.accounts.map (exportOfficialAccountDoc includeSensitiveData)
      | ProviderType.third_party =>
          p.accounts.map (exportThirdAccountDoc includeSensitiveData)) }

/-- `SettingsManager.exportSettings`, as the document it writes
(`version: '1.0.0'`; proxy credentials obfuscated and included only when
sensitive data is included and `auth` is present). -/
def exportSettingsDoc (s : AppSettings) (includeSensitiveData : Bool) : ImportDoc :=
  { version := some (strOf "1.0.0")
    includeSensitiveData := includeSensitiveData
    settings := some
      { proxyConfig := some
          { enabled := s.proxyConfig.enabled
            url := s.proxyConfig.url
            auth :=
              if includeSensitiveData then
                s.proxyConfig.auth.map (fun a =>
                  { username := encodeData a.username
                    password := encodeData a.password })
              else none }
        terminal := some s.terminal
        projectFilter := some s.projectFilter
        serviceProviders :=
          some (s.serviceProviders.map (exportProviderDoc includeSensitiveData)) } }

/-- An official account as deserialized by the `claude_official` branch of
`importSettings`: the credential is de-obfuscated only when the document
declares sensitive data and the field is truthy. -/
def officialFromDoc (hasSensitiveData : Bool) (d : AccountDoc) : ClaudeAccount :=
  { accountUuid := d.accountUuid
    emailAddress := d.emailAddress
    organizationUuid := d.organizationUuid
    organizationRole := d.organizationRole
    workspaceRole := d.workspaceRole
    organizationName := d.organizationName
    authorization :=
      if hasSensitiveData ∧ jsTruthy d.authorization
      then some (decodeData d.authorization) else none }

/-- A third-party account as deserialized by the `third_party` branch:
`description: account.description || ''`, and `apiKey` de-obfuscated when
sensitive data is declared and present, else set to `''`. -/
def thirdFromDoc (hasSensitiveData : Bool) (d : AccountDoc) : ThirdPartyAccount :=
  { id := d.id
    name := d.name
    baseUrl := d.baseUrl
    description := some d.description
    apiKey :=
      if hasSensitiveData ∧ jsTruthy d.apiKey
      then decodeData d.apiKey else [] }

/-- The body of the third-party import loop over one accounts-array entry,
threading `(state, importedAccountsCount, importedSensitiveCount)`: a
valid entry (`id`, `name`, `baseUrl` all truthy) is upserted and counted,
an invalid one is silently skipped. -/
def processThirdEntry (hasSensitiveData : Bool) (providerId : Str) (d : AccountDoc)
    (st : AppSettings × Nat × Nat) : AppSettings × Nat × Nat :=
  if jsTruthy d.id ∧ jsTruthy d.name ∧ jsTruthy d.baseUrl then
    (addThirdPartyAccount st.1 providerId (thirdFromDoc hasSensitiveData d),
     st.2.1 + 1,
     st.2.2 + if hasSensitiveData ∧ jsTruthy d.apiKey then 1 else 0)
  else st

/-- Processing of one document provider inside the `serviceProviders`
loop of `importSettings`. -/
def processProviderDoc (hasSensitiveData : Bool) (st : AppSettings × Nat × Nat)
    (pd : ProviderDoc) : AppSettings × Nat × Nat :=
  match pd.type, pd.accounts with
  | ProviderType.claude_official, some docs =>
      let claudeAccounts := docs.map (officialFromDoc hasSensitiveData)
      (updateClaudeAccounts st.1 claudeAccounts,
       st.2.1 + claudeAccounts.length,
       st.2.2 +
         if hasSensitiveData
         then (claudeAccounts.filter (fun acc => jsTruthyOpt acc.authorization)).length
         else 0)
  | ProviderType.third_party, some docs =>
      docs.foldl (fun acc d => processThirdEntry hasSensitiveData pd.id d acc) st
  | _, none => st

/-- The section-by-section body of `importSettings`, applied after format
validation; returns the updated state and the `imported` labels in the
order the source pushes them (proxy, terminal, project filter,
accounts). -/
def importSections (hasSensitiveData : Bool) (sd : SettingsDoc) (s : AppSettings) :
    AppSettings × List ImportLabel :=
  let step1 : AppSettings × List ImportLabel :=
    match sd.proxyConfig with
    | some pcd =>
        ({ s with proxyConfig :=
            { enabled := pcd.enabled
              url := pcd.url
              auth :=
                match hasSensitiveData, pcd.auth with
                | true, some ad =>
                    some { username := decodeData ad.username
                           password := decodeData ad.password }
                | _, _ => s.proxyConfig.auth } },
         [ImportLabel.proxySection hasSensitiveData])
    | none => (s, [])
  let step2 : AppSettings × List ImportLabel :=
    match sd.terminal with
    | some td => ({ step1.1 with terminal := td }, [ImportLabel.terminalSection])
    | none => (step1.1, [])
  let step3 : AppSettings × List ImportLabel :=
    match sd.projectFilter with
    | some pf => ({ step2.1 with projectFilter := pf }, [ImportLabel.projectFilterSection])
    | none => (step2.1, [])
  let step4 : AppSettings × List ImportLabel :=
    match sd.serviceProviders with
    | some pds =>
        let res := pds.foldl (processProviderDoc hasSensitiveData) (step3.1, 0, 0)
        (res.1,
         if res.2.1 > 0 then
           [ImportLabel.accountsSection res.2.1
             (if hasSensitiveData ∧ res.2.2 > 0 then some res.2.2 else none)]
         else [])
    | none => (step3.1, [])
  (step4.1, step1.2 ++ step2.2 ++ step3.2 ++ step4.2)

/-- The structured failure returned for an invalid document, with the
untouched state. -/
def importFailure (s : AppSettings) : ImportResult × AppSettings :=
  ({ success := false, error := some ImportError.invalidFormat, imported := none }, s)

/-- `SettingsManager.importSettings`, from the parsed document onward:
`if (!importData.version || !importData.settings)` return a structured
failure without touching the state; otherwise apply the sections. -/
def importSettingsRun (doc : ImportDoc) (s : AppSettings) : ImportResult × AppSettings :=
  match doc.settings with
  | none => importFailure s
  | some sd =>
      if jsTruthyOpt doc.version then
        let res := importSections doc.includeSensitiveData sd s
        ({ success := true, error := none, imported := some res.2 }, res.1)
      else importFailure s

/-- A document carrying exactly one provider and no other section, with
`includeSensitiveData` not set (hence not `=== true`). -/
def singleProviderDoc (pd : ProviderDoc) : ImportDoc :=
  { version := some (strOf "1.0.0")
    includeSensitiveData := false
    settings := some
      { proxyConfig := none
        terminal := none
        projectFilter := none
        serviceProviders := some [pd] } }

/-- A third-party import entry with an empty `baseUrl` (invalid). -/
def docBad : AccountDoc :=
  { emptyAccountDoc with id := strOf "b1", name := strOf "Bad", baseUrl := [] }

/-- A valid third-party import entry. -/
def docGood : AccountDoc :=
  { emptyAccountDoc with
    id := strOf "g1", name := strOf "Good", baseUrl := strOf "https://g"
    apiKey := strOf "QQ==" }

/-- The registry used as the C9 witness: one third-party provider holding
`tpAcc1` (with a non-empty stored `apiKey`). -/
def c9State : AppSettings := addThirdPartyAccount defaultSettings (strOf "prov1") tpAcc1

/-- The provider stored in `c9State`. -/
def c9Provider : ServiceProvider :=
  { id := strOf "prov1"
    type := ProviderType.third_party
    name := strOf "TP One"
    accounts := [Account.thirdParty tpAcc1]
    activeAccountId := strOf "k1"
    useProxy := true }

/-- A valid import entry re-using the stored account's id. -/
def docNew : AccountDoc :=
  { emptyAccountDoc with id := strOf "k1", name := strOf "New", baseUrl := strOf "https://n" }

/-! ## Claim C3: the active-account invariant under the mutators -/

/-- The natural key of a stored account: `emailAddress` for an official
record, `id` for a third-party record. -/
def natKeyA : Account → Str
  | .official c => c.emailAddress
  | .thirdParty t => t.id

/-- Per-provider invariant: the `activeAccountId` pointer is empty or is
the natural key of an account present in the provider. -/
def providerOkB (p : ServiceProvider) : Bool :=
  p.activeAccountId = [] || p.accounts.any (fun a => natKeyA a = p.activeAccountId)

/-- Registry invariant: every provider satisfies `providerOkB`. -/
def registryInvB (s : AppSettings) : Bool :=
  s.serviceProviders.all providerOkB

/-- One call of the mutator protocol of §4.2. -/
inductive MutatorOp where
  | addProvider (p : ServiceProvider)
  | removeProvider (id : Str)
  | setActiveProviderOp (id : Str)
  | setActiveAccountOp (pid aid : Str)
  | setProxyUsage (pid : Str) (b : Bool)
  | mergeOfficial (accs : List ClaudeAccount)
  | updateCredential (email auth : Str)
  | upsertThird (pid : Str) (a : ThirdPartyAccount)
  | removeThird (pid aid : Str)
deriving Repr

/-- The state transformer of one mutator call. -/
def applyOp (s : AppSettings) : MutatorOp → AppSettings
  | .addProvider p => addServiceProvider s p
  | .removeProvider i => removeServiceProvider s i
  | .setActiveProviderOp i => setActiveServiceProvider s i
  | .setActiveAccountOp pid aid => setActiveAccount s pid aid
  | .setProxyUsage pid b => setProviderProxyUsage s pid b
  | .mergeOfficial accs => updateClaudeAccounts s accs
  | .updateCredential e a => updateClaudeAccountAuthorization s e a
  | .upsertThird pid a => addThirdPartyAccount s pid a
  | .removeThird pid aid => removeThirdPartyAccount s pid aid

/-- A finite sequence of mutator calls. -/
def applyOps (s : AppSettings) (ops : List MutatorOp) : AppSettings :=
  ops.foldl applyOp s

/-- Side condition under which a call preserves the invariant:
`addServiceProvider` must be handed an invariant-satisfying provider and
`setActiveAccount` an empty key or the key of an account present in the
target provider (neither is checked by the code — see the counterexample);
every other call needs no condition. -/
def opOkB (s : AppSettings) : MutatorOp → Bool
  | .addProvider p => providerOkB p
  | .setActiveAccountOp pid aid =>
      match findProviderById s pid with
      | some p => aid = [] || p.accounts.any (fun a => natKeyA a = aid)
      | none => true
  | _ => true

/-- Sequential side conditions along a call sequence. -/
def opsOkB : AppSettings → List MutatorOp → Bool
  | _, [] => true
  | s, op :: rest => opOkB s op && opsOkB (applyOp s op) rest

/-- An invariant-satisfying provider with no accounts. -/
def emptyProviderP : ServiceProvider :=
  { id := strOf "p", type := ProviderType.third_party, name := strOf "P"
    accounts := [], activeAccountId := [], useProxy := true }

/-- The first email of an incoming account list, or `''`. -/
def headEmail : List ClaudeAccount → Str
  | [] => []
  | c :: _ => c.emailAddress

/-- Witness fixture: an official provider with one credentialed account
and a non-default `useProxy`. -/
def offW : ServiceProvider :=
  { id := claudeOfficialId, type := ProviderType.claude_official
    name := claudeOfficialName, accounts := [Account.official accT]
    activeAccountId := strOf "a@x.com", useProxy := false }

/-- Witness fixture: a third-party provider with one keyed account. -/
def tpW : ServiceProvider :=
  { id := strOf "prov1", type := ProviderType.third_party, name := strOf "Prov"
    accounts := [Account.thirdParty tpAcc1]
    activeAccountId := strOf "k1", useProxy := true }

/-- Witness fixture: the two-provider registry. -/
def c2WState : AppSettings := { defaultSettings with serviceProviders := [offW, tpW] }

/-! ## Theorems -/

theorem codeToVal_valToCode : ∀ v : Nat, v < 64 → codeToVal (valToCode v) = some v := by
  decide

theorem codeToVal_pad : codeToVal 61 = none := by decide

/-- Decoding inverts encoding on every byte sequence. -/
theorem decGroups_filterMap_encBytes :
    ∀ bs : List Nat, allBytes bs →
      decGroups ((encBytes bs).filterMap codeToVal) = bs
  | [], _ => rfl
  | [b1], h => by
      have h1 : b1 < 256 := h b1 (by simp)
      simp only [encBytes, List.filterMap_cons, List.filterMap_nil,
        codeToVal_valToCode (b1 / 4) (by omega),
        codeToVal_valToCode ((b1 % 4) * 16) (by omega), codeToVal_pad]
      simp only [decGroups, List.cons.injEq, and_true]
      omega
  | [b1, b2], h => by
      have h1 : b1 < 256 := h b1 (by simp)
      have h2 : b2 < 256 := h b2 (by simp)
      simp only [encBytes, List.filterMap_cons, List.filterMap_nil,
        codeToVal_valToCode (b1 / 4) (by omega),
        codeToVal_valToCode ((b1 % 4) * 16 + b2 / 16) (by omega),
        codeToVal_valToCode ((b2 % 16) * 4) (by omega), codeToVal_pad]
      simp only [decGroups, List.cons.injEq, and_true]
      omega
  | b1 :: b2 :: b3 :: rest, h => by
      have h1 : b1 < 256 := h b1 (by simp)
      have h2 : b2 < 256 := h b2 (by simp)
      have h3 : b3 < 256 := h b3 (by simp)
      have ih := decGroups_filterMap_encBytes rest
        (fun b hb => h b (by simp [hb]))
      simp only [encBytes, List.filterMap_cons,
        codeToVal_valToCode (b1 / 4) (by omega),
        codeToVal_valToCode ((b1 % 4) * 16 + b2 / 16) (by omega),
        codeToVal_valToCode ((b2 % 16) * 4 + b3 / 64) (by omega),
        codeToVal_valToCode (b3 % 64) (by omega)]
      simp only [decGroups, ih, List.cons.injEq]
      refine ⟨by omega, by omega, by omega, trivial⟩

/-- `encodeData` of a non-empty string is non-empty. -/
theorem encodeData_ne_nil (bs : List Nat) (h : bs ≠ []) : encodeData bs ≠ [] := by
  match bs with
  | [] => exact absurd rfl h
  | [b1] => simp [encodeData, encBytes]
  | [b1, b2] => simp [encodeData, encBytes]
  | b1 :: b2 :: b3 :: rest => simp [encodeData, encBytes]

/-- The encoder never emits the padding character as a data character. -/
theorem valToCode_ne_pad (v : Nat) : valToCode v ≠ 61 := by
  unfold valToCode
  split_ifs <;> omega

/-- On encoder output, stopping at the first `=` discards only the
trailing padding, which the alphabet filter discards anyway. -/
theorem takeWhile_filterMap_encBytes :
    ∀ bs : List Nat,
      ((encBytes bs).takeWhile (fun c => c ≠ 61)).filterMap codeToVal
        = (encBytes bs).filterMap codeToVal
  | [] => rfl
  | [b1] => by
      simp only [encBytes]
      rw [List.takeWhile_cons_of_pos (by simpa using valToCode_ne_pad _),
        List.takeWhile_cons_of_pos (by simpa using valToCode_ne_pad _),
        List.takeWhile_cons_of_neg (by simp)]
      simp only [List.filterMap_cons, codeToVal_pad]
  | [b1, b2] => by
      simp only [encBytes]
      rw [List.takeWhile_cons_of_pos (by simpa using valToCode_ne_pad _),
        List.takeWhile_cons_of_pos (by simpa using valToCode_ne_pad _),
        List.takeWhile_cons_of_pos (by simpa using valToCode_ne_pad _),
        List.takeWhile_cons_of_neg (by simp)]
      simp only [List.filterMap_cons, codeToVal_pad]
  | b1 :: b2 :: b3 :: rest => by
      have ih := takeWhile_filterMap_encBytes rest
      simp only [encBytes]
      rw [List.takeWhile_cons_of_pos (by simpa using valToCode_ne_pad _),
        List.takeWhile_cons_of_pos (by simpa using valToCode_ne_pad _),
        List.takeWhile_cons_of_pos (by simpa using valToCode_ne_pad _),
        List.takeWhile_cons_of_pos (by simpa using valToCode_ne_pad _)]
      simp only [List.filterMap_cons, ih]

/-- `decodeData ∘ encodeData` is the identity on every byte string,
including the empty one. -/
theorem decodeData_encodeData (bs : Str) (h : allBytes bs) :
    decodeData (encodeData bs) = bs := by
  match bs with
  | [] => rfl
  | b :: rest =>
      have hne : encodeData (b :: rest) ≠ [] := encodeData_ne_nil _ (by simp)
      unfold decodeData
      rw [if_neg (by simpa using hne)]
      unfold encodeData
      rw [if_neg (by simp)]
      rw [takeWhile_filterMap_encBytes]
      exact decGroups_filterMap_encBytes _ h

theorem upsertById_of_no_match (l : List ServiceProvider) (P : ServiceProvider)
    (h : ∀ p ∈ l, p.id ≠ P.id) : upsertById l P = l ++ [P] := by
  induction l with
  | nil => rfl
  | cons p rest ih =>
      rw [upsertById, if_neg (h p (by simp)), ih (fun q hq => h q (by simp [hq]))]
      rfl

/-- After upserting an official-typed provider whose id agrees with the
first official provider (or with no official provider present), the
upserted provider is the first official provider of the result. -/
theorem find_official_upsertById (l : List ServiceProvider) (P : ServiceProvider)
    (hP : P.type = ProviderType.claude_official)
    (hcase : l.find? (fun p => p.type = ProviderType.claude_official) = none ∨
      ∃ q, l.find? (fun p => p.type = ProviderType.claude_official) = some q ∧ q.id = P.id) :
    (upsertById l P).find? (fun p => p.type = ProviderType.claude_official) = some P := by
  induction l with
  | nil => simp [upsertById, List.find?, hP]
  | cons p rest ih =>
      by_cases hid : p.id = P.id
      · rw [upsertById, if_pos hid]
        exact List.find?_cons_of_pos _ (by simp [hP])
      · rw [upsertById, if_neg hid]
        by_cases hoff : p.type = ProviderType.claude_official
        · exfalso
          rcases hcase with hnone | ⟨q, hq, hqid⟩
          · rw [List.find?_cons_of_pos _ (by simp [hoff])] at hnone
            exact Option.noConfusion hnone
          · rw [List.find?_cons_of_pos _ (by simp [hoff])] at hq
            exact hid (by rw [← Option.some_injective _ hq] at hqid; exact hqid)
        · rw [List.find?_cons_of_neg _ (by simpa using hoff)]
          refine ih ?_
          rcases hcase with hnone | ⟨q, hq, hqid⟩
          · rw [List.find?_cons_of_neg _ (by simpa using hoff)] at hnone
            exact Or.inl hnone
          · rw [List.find?_cons_of_neg _ (by simpa using hoff)] at hq
            exact Or.inr ⟨q, hq, hqid⟩

theorem mergedClaudeProvider_type (s : AppSettings) (accs : List ClaudeAccount) :
    (mergedClaudeProvider s accs).type = ProviderType.claude_official := by
  unfold mergedClaudeProvider
  cases hfind : findOfficial s with
  | none => rfl
  | some q =>
      have := List.find?_some hfind
      simpa using this

/-- Anchor lemma: after `updateClaudeAccounts`, the first official
provider of the registry is exactly the merged provider. -/
theorem findOfficial_updateClaudeAccounts (s : AppSettings) (accs : List ClaudeAccount) :
    findOfficial (updateClaudeAccounts s accs) = some (mergedClaudeProvider s accs) := by
  unfold updateClaudeAccounts addServiceProvider findOfficial
  refine find_official_upsertById _ _ (mergedClaudeProvider_type s accs) ?_
  cases hfind : findOfficial s with
  | none => exact Or.inl hfind
  | some q =>
      refine Or.inr ⟨q, hfind, ?_⟩
      unfold mergedClaudeProvider
      rw [hfind]
      rfl

theorem officialAccountsOf_update (s : AppSettings) (accs : List ClaudeAccount) :
    officialAccountsOf (updateClaudeAccounts s accs) =
      accs.foldl mergeClaudeStep (officialAccountsOf s) := by
  unfold officialAccountsOf
  rw [findOfficial_updateClaudeAccounts]
  rfl

/-- Each merge step preserves every element's `emailAddress` key (the
matched element is replaced by a record with the same email). -/
theorem mergeClaudeStep_key_mem (acc : List Account) (c : ClaudeAccount) (e : Option Str)
    (h : ∃ a ∈ acc, a.emailAddressF = e) :
    ∃ a ∈ mergeClaudeStep acc c, a.emailAddressF = e := by
  induction acc with
  | nil => simp at h
  | cons a rest ih =>
      rcases h with ⟨x, hx, hxe⟩
      by_cases hm : a.emailAddressF = some c.emailAddress
      · rw [mergeClaudeStep, if_pos hm]
        rcases List.mem_cons.mp hx with rfl | hxr
        · refine ⟨Account.official { c with
            authorization := jsOrOpt x.authorizationF c.authorization }, by simp, ?_⟩
          rw [show (Account.official { c with
            authorization := jsOrOpt x.authorizationF c.authorization }).emailAddressF
              = some c.emailAddress from rfl, ← hm, hxe]
        · exact ⟨x, by simp [hxr], hxe⟩
      · rw [mergeClaudeStep, if_neg hm]
        rcases List.mem_cons.mp hx with rfl | hxr
        · exact ⟨x, by simp, hxe⟩
        · rcases ih ⟨x, hxr, hxe⟩ with ⟨y, hy, hye⟩
          exact ⟨y, by simp [hy], hye⟩

/-- Elements not matched by the incoming account survive a merge step
unchanged. -/
theorem mergeClaudeStep_mem_of_ne (acc : List Account) (c : ClaudeAccount) (a : Account)
    (ha : a ∈ acc) (hne : a.emailAddressF ≠ some c.emailAddress) :
    a ∈ mergeClaudeStep acc c := by
  induction acc with
  | nil => simp at ha
  | cons b rest ih =>
      by_cases hm : b.emailAddressF = some c.emailAddress
      · rw [mergeClaudeStep, if_pos hm]
        rcases List.mem_cons.mp ha with rfl | hr
        · exact absurd hm hne
        · simp [hr]
      · rw [mergeClaudeStep, if_neg hm]
        rcases List.mem_cons.mp ha with rfl | hr
        · simp
        · simp [ih hr]

/-- After a merge step the incoming account's email is present. -/
theorem mergeClaudeStep_key_incoming (acc : List Account) (c : ClaudeAccount) :
    ∃ a ∈ mergeClaudeStep acc c, a.emailAddressF = some c.emailAddress := by
  induction acc with
  | nil => exact ⟨Account.official c, by simp [mergeClaudeStep], rfl⟩
  | cons b rest ih =>
      by_cases hm : b.emailAddressF = some c.emailAddress
      · rw [mergeClaudeStep, if_pos hm]
        exact ⟨Account.official { c with
          authorization := jsOrOpt b.authorizationF c.authorization }, by simp, rfl⟩
      · rw [mergeClaudeStep, if_neg hm]
        rcases ih with ⟨y, hy, hye⟩
        exact ⟨y, by simp [hy], hye⟩

theorem mergeFold_key_mem (accs : List ClaudeAccount) (acc : List Account) (e : Option Str)
    (h : ∃ a ∈ acc, a.emailAddressF = e) :
    ∃ a ∈ accs.foldl mergeClaudeStep acc, a.emailAddressF = e := by
  induction accs generalizing acc with
  | nil => exact h
  | cons c rest ih => exact ih _ (mergeClaudeStep_key_mem acc c e h)

theorem mergeFold_mem_of_ne (accs : List ClaudeAccount) (acc : List Account) (a : Account)
    (ha : a ∈ acc) (hne : ∀ c ∈ accs, a.emailAddressF ≠ some c.emailAddress) :
    a ∈ accs.foldl mergeClaudeStep acc := by
  induction accs generalizing acc with
  | nil => exact ha
  | cons c rest ih =>
      exact ih _ (mergeClaudeStep_mem_of_ne acc c a ha (hne c (by simp)))
        (fun d hd => hne d (by simp [hd]))

theorem mergeFold_key_incoming (accs : List ClaudeAccount) (acc : List Account)
    (c : ClaudeAccount) (hc : c ∈ accs) :
    ∃ a ∈ accs.foldl mergeClaudeStep acc, a.emailAddressF = some c.emailAddress := by
  induction accs generalizing acc with
  | nil => simp at hc
  | cons d rest ih =>
      rcases List.mem_cons.mp hc with rfl | hr
      · exact mergeFold_key_mem rest _ _ (mergeClaudeStep_key_incoming acc c)
      · exact ih _ hr

/-- The merge step at the first matching position: everything before the
match is unmatched and kept, the match is replaced by the incoming record
with `existing.authorization || newAccount.authorization`, everything
after is kept. -/
theorem mergeClaudeStep_first_match (pre post : List Account) (ex c : ClaudeAccount)
    (hpre : ∀ x ∈ pre, x.emailAddressF ≠ some c.emailAddress)
    (hmatch : ex.emailAddress = c.emailAddress) :
    mergeClaudeStep (pre ++ Account.official ex :: post) c =
      pre ++ Account.official { c with
        authorization := jsOrOpt ex.authorization c.authorization } :: post := by
  induction pre with
  | nil =>
      simp only [List.nil_append]
      rw [mergeClaudeStep, if_pos (by simp [Account.emailAddressF, hmatch])]
      rfl
  | cons x rest ih =>
      simp only [List.cons_append]
      rw [mergeClaudeStep, if_neg (hpre x (by simp))]
      rw [ih (fun y hy => hpre y (by simp [hy]))]

/-! ## Claim C1 -/

/-- Claim C1, counterexample.  The claim says the incoming credential
replaces the existing one whenever the incoming record supplies a
non-empty credential.  The code computes
`existing.authorization || newAccount.authorization`, so with an existing
credential `"T"` and an incoming non-empty credential `"U"` the merged
account keeps `"T"`, not the `"U"` the claim requires. -/
theorem claim_C1_counterexample :
    officialAccountsOf
        (updateClaudeAccounts (updateClaudeAccounts defaultSettings [accT]) [accU])
      = [Account.official { accU with authorization := some (strOf "T") }]
    ∧ some (strOf "T") ≠ some (strOf "U") := by
  exact ⟨by decide, by decide⟩

/-- Claim C1, amended: in `updateClaudeAccounts` (`mergeOfficialAccounts`),
an incoming account matching an existing account by `emailAddress` (at the
first matching position) replaces all fields by the incoming record's
fields except `authorization` (the credential), which is retained from the
*existing* record whenever the existing record has a non-empty one; the
incoming credential is used only when the existing one is empty or
absent. -/
theorem claim_C1_amended (s : AppSettings) (incoming : ClaudeAccount)
    (pre post : List Account) (ex : ClaudeAccount)
    (hdecomp : officialAccountsOf s = pre ++ Account.official ex :: post)
    (hpre : ∀ x ∈ pre, x.emailAddressF ≠ some incoming.emailAddress)
    (hmatch : ex.emailAddress = incoming.emailAddress) :
    officialAccountsOf (updateClaudeAccounts s [incoming]) =
      pre ++ Account.official { incoming with
        authorization :=
          if jsTruthyOpt ex.authorization then ex.authorization
          else incoming.authorization } :: post := by
  rw [officialAccountsOf_update, hdecomp]
  show mergeClaudeStep (pre ++ Account.official ex :: post) incoming = _
  rw [mergeClaudeStep_first_match pre post ex incoming hpre hmatch]
  rfl

/-- Witness for `claim_C1_amended` at a concrete input. -/
theorem claim_C1_amended_witness :
    officialAccountsOf
        (updateClaudeAccounts (updateClaudeAccounts defaultSettings [accT]) [accU]) =
      [] ++ Account.official { accU with
        authorization :=
          if jsTruthyOpt accT.authorization then accT.authorization
          else accU.authorization } :: [] :=
  claim_C1_amended (updateClaudeAccounts defaultSettings [accT]) accU [] [] accT
    (by decide) (by decide) (by decide)

/-! ## Claim C4 -/

/-- Claim C4: `updateClaudeAccounts` never deletes existing accounts:
every account present before the merge is still present after, up to field
update on email match (its email key survives, and an account matched by
no incoming email survives unchanged); and merging `[A]` then `[B]` with
distinct emails leaves the official provider containing accounts for both
emails. -/
theorem claim_C4_merge_never_deletes (s : AppSettings) (accs : List ClaudeAccount)
    (A B : ClaudeAccount) (hAB : A.emailAddress ≠ B.emailAddress) :
    (∀ a ∈ officialAccountsOf s,
        ∃ a' ∈ officialAccountsOf (updateClaudeAccounts s accs),
          a'.emailAddressF = a.emailAddressF)
  ∧ (∀ a ∈ officialAccountsOf s,
        (∀ c ∈ accs, a.emailAddressF ≠ some c.emailAddress) →
        a ∈ officialAccountsOf (updateClaudeAccounts s accs))
  ∧ (∃ x ∈ officialAccountsOf (updateClaudeAccounts (updateClaudeAccounts s [A]) [B]),
        x.emailAddressF = some A.emailAddress)
  ∧ (∃ y ∈ officialAccountsOf (updateClaudeAccounts (updateClaudeAccounts s [A]) [B]),
        y.emailAddressF = some B.emailAddress) := by
  refine ⟨?_, ?_, ?_, ?_⟩
  · intro a ha
    rw [officialAccountsOf_update]
    exact mergeFold_key_mem accs _ _ ⟨a, ha, rfl⟩
  · intro a ha hne
    rw [officialAccountsOf_update]
    exact mergeFold_mem_of_ne accs _ a ha hne
  · rw [officialAccountsOf_update, officialAccountsOf_update]
    exact mergeFold_key_mem [B] _ _ (mergeFold_key_incoming [A] _ A (by simp))
  · rw [officialAccountsOf_update]
    exact mergeFold_key_incoming [B] _ B (by simp)

/-- Witness for `claim_C4_merge_never_deletes` at a concrete input. -/
theorem claim_C4_merge_never_deletes_witness :
    accT.emailAddress ≠ accB.emailAddress
  ∧ (∃ x ∈ officialAccountsOf
        (updateClaudeAccounts (updateClaudeAccounts defaultSettings [accT]) [accB]),
        x.emailAddressF = some accT.emailAddress)
  ∧ (∃ y ∈ officialAccountsOf
        (updateClaudeAccounts (updateClaudeAccounts defaultSettings [accT]) [accB]),
        y.emailAddressF = some accB.emailAddress) :=
  ⟨by decide,
   (claim_C4_merge_never_deletes defaultSettings [] accT accB (by decide)).2.2.1,
   (claim_C4_merge_never_deletes defaultSettings [] accT accB (by decide)).2.2.2⟩

/-- The active pointer computed by `updateClaudeAccounts`, by
definitional unfolding. -/
theorem mergedClaudeProvider_active (s : AppSettings) (accs : List ClaudeAccount) :
    (mergedClaudeProvider s accs).activeAccountId =
      if (accs.find? (fun acc =>
            acc.emailAddress
              = ((findOfficial s).getD freshClaudeProvider).activeAccountId)).isSome
      then ((findOfficial s).getD freshClaudeProvider).activeAccountId
      else match accs with | [] => [] | acc :: _ => acc.emailAddress := rfl

/-! ## Claim C5 -/

/-- Claim C5: after `updateClaudeAccounts`, if the official provider's
prior `activeAccountId` equals no email of the *incoming* list, the new
`activeAccountId` is the first incoming email (or empty when the incoming
list is empty); if it does appear among the incoming emails, it is
unchanged. -/
theorem claim_C5_active_reset_from_incoming (s : AppSettings) (accs : List ClaudeAccount) :
    ((∀ c ∈ accs,
        c.emailAddress ≠ ((findOfficial s).getD freshClaudeProvider).activeAccountId) →
      (findOfficial (updateClaudeAccounts s accs)).map (fun p => p.activeAccountId)
        = some (match accs with | [] => [] | c :: _ => c.emailAddress))
  ∧ ((∃ c ∈ accs,
        c.emailAddress = ((findOfficial s).getD freshClaudeProvider).activeAccountId) →
      (findOfficial (updateClaudeAccounts s accs)).map (fun p => p.activeAccountId)
        = some ((findOfficial s).getD freshClaudeProvider).activeAccountId) := by
  constructor
  · intro h
    rw [findOfficial_updateClaudeAccounts]
    show some (mergedClaudeProvider s accs).activeAccountId = _
    rw [mergedClaudeProvider_active,
      List.find?_eq_none.mpr (fun x hx => by simpa using h x hx)]
    rfl
  · intro h
    rcases h with ⟨c, hc, he⟩
    rw [findOfficial_updateClaudeAccounts]
    show some (mergedClaudeProvider s accs).activeAccountId = _
    rw [mergedClaudeProvider_active,
      show (accs.find? (fun acc =>
          acc.emailAddress = ((findOfficial s).getD freshClaudeProvider).activeAccountId)).isSome
        = true from List.find?_isSome.mpr ⟨c, hc, by simpa using he⟩]
    rfl

/-- Witness for `claim_C5_active_reset_from_incoming` at concrete
inputs, exercising both directions. -/
theorem claim_C5_active_reset_from_incoming_witness :
    ((findOfficial (updateClaudeAccounts defaultSettings [accT])).map
        (fun p => p.activeAccountId) = some accT.emailAddress)
  ∧ ((findOfficial
        (updateClaudeAccounts (updateClaudeAccounts defaultSettings [accT]) [accT])).map
        (fun p => p.activeAccountId) = some accT.emailAddress) :=
  ⟨(claim_C5_active_reset_from_incoming defaultSettings [accT]).1 (by decide),
   (claim_C5_active_reset_from_incoming
      (updateClaudeAccounts defaultSettings [accT]) [accT]).2 ⟨accT, by simp, by decide⟩⟩

/-! ## Claim C10 -/

/-- Claim C10, counterexample to the "appends" part.  When no
official-kind provider exists but some provider already bears the id
`'claude_official'` (here: a third-party provider created by
`addThirdPartyAccount('claude_official', …)`), `updateClaudeAccounts([])`
does not append the fresh official provider: `addServiceProvider` replaces
the id-colliding provider, deleting its accounts. -/
theorem claim_C10_counterexample :
    findOfficial (addThirdPartyAccount defaultSettings claudeOfficialId tpAcc1) = none
  ∧ (updateClaudeAccounts
        (addThirdPartyAccount defaultSettings claudeOfficialId tpAcc1) []).serviceProviders
      = [freshClaudeProvider]
  ∧ (updateClaudeAccounts
        (addThirdPartyAccount defaultSettings claudeOfficialId tpAcc1) []).serviceProviders
      ≠ (addThirdPartyAccount defaultSettings claudeOfficialId tpAcc1).serviceProviders
          ++ [freshClaudeProvider] := by
  exact ⟨by decide, by decide, by decide⟩

/-- Claim C10, amended: `updateClaudeAccounts([])` is not a no-op: the
resulting first official provider is the prior one (or the freshly created
`claude_official` provider) with its `activeAccountId` cleared and its
accounts retained unchanged; and when no official-kind provider exists
*and no provider bears the id `'claude_official'`*, the fresh provider
(id `'claude_official'`, empty accounts, `useProxy = true`) is appended to
the registry.  (When a non-official provider bears that id, it is replaced
instead — see the counterexample.) -/
theorem claim_C10_amended (s : AppSettings) :
    (findOfficial (updateClaudeAccounts s []) =
        some { (findOfficial s).getD freshClaudeProvider with activeAccountId := [] })
  ∧ (findOfficial s = none →
      (∀ p ∈ s.serviceProviders, p.id ≠ claudeOfficialId) →
      (updateClaudeAccounts s []).serviceProviders
        = s.serviceProviders ++ [freshClaudeProvider]) := by
  constructor
  · rw [findOfficial_updateClaudeAccounts]
    rfl
  · intro hnone hids
    have hm : mergedClaudeProvider s [] = freshClaudeProvider := by
      unfold mergedClaudeProvider
      rw [hnone]
      rfl
    show upsertById s.serviceProviders (mergedClaudeProvider s []) = _
    rw [hm]
    exact upsertById_of_no_match _ _ (fun p hp => hids p hp)

/-- Witness for `claim_C10_amended` at a concrete input. -/
theorem claim_C10_amended_witness :
    (findOfficial (updateClaudeAccounts defaultSettings []) =
        some { (findOfficial defaultSettings).getD freshClaudeProvider with
                 activeAccountId := [] })
  ∧ (updateClaudeAccounts defaultSettings []).serviceProviders
      = defaultSettings.serviceProviders ++ [freshClaudeProvider] :=
  ⟨(claim_C10_amended defaultSettings).1,
   (claim_C10_amended defaultSettings).2 (by decide) (by decide)⟩

/-! ## Claim C6 -/

/-- Claim C6: for every import document lacking `version` or lacking
`settings`, `importSettings` returns a structured failure
(`success = false`, no raise) and the registry state after the call is
exactly the state before — zero mutation on rejection. -/
theorem claim_C6_invalid_doc_rejected (doc : ImportDoc) (s : AppSettings)
    (h : doc.version = none ∨ doc.settings = none) :
    importSettingsRun doc s
      = ({ success := false, error := some ImportError.invalidFormat, imported := none }, s) := by
  rcases h with hv | hs
  · unfold importSettingsRun
    cases hset : doc.settings with
    | none => rfl
    | some sd =>
        rw [hv]
        rfl
  · unfold importSettingsRun
    rw [hs]
    rfl

/-- Witness for `claim_C6_invalid_doc_rejected`: a version-less document
against a non-trivial registry. -/
theorem claim_C6_invalid_doc_rejected_witness :
    importSettingsRun
        { version := none, includeSensitiveData := true
          settings := some
            { proxyConfig := none, terminal := none
              projectFilter := none, serviceProviders := none } }
        (updateClaudeAccounts defaultSettings [accT])
      = ({ success := false, error := some ImportError.invalidFormat, imported := none },
         updateClaudeAccounts defaultSettings [accT]) :=
  claim_C6_invalid_doc_rejected _ _ (Or.inl rfl)

/-! ## Claim C8 -/

/-- Claim C8, counterexample.  `"QUJ"` is a truncated encoding (the first
three characters of `"QUJD"`, the encoding of `"ABC"`); the claim demands
that de-obfuscating it yield the empty string, but `decodeData` returns
the partial decode `"AB"`, which is not empty. -/
theorem claim_C8_counterexample :
    decodeData (strOf "QUJ") = strOf "AB" ∧ strOf "AB" ≠ [] :=
  ⟨by decide, by decide⟩

/-- Claim C8, amended: `decodeData` is total (`Buffer.from(_, 'base64')`
never throws; the source's `catch` is unreachable) and returns `''` for
the empty input and for every input in which fewer than two alphabet
characters (standard or URL-safe) precede the first `=`; every other
malformed or truncated encoding is decoded leniently (URL-safe characters
accepted, other invalid characters skipped, decoding stopped at the first
`=`, trailing partial group dropped) and may yield a non-empty partial
result rather than `''`. -/
theorem claim_C8_amended (s : Str)
    (h : ((s.takeWhile (fun c => c ≠ 61)).filterMap codeToVal).length ≤ 1) :
    decodeData s = [] := by
  unfold decodeData
  by_cases he : s.isEmpty
  · rw [if_pos he]
  · rw [if_neg he]
    rcases hm : (s.takeWhile (fun c => c ≠ 61)).filterMap codeToVal
      with _ | ⟨a, _ | ⟨b, rest⟩⟩
    · rw [hm]
      rfl
    · rw [hm]
      rfl
    · rw [hm] at h
      simp at h

/-- Witness for `claim_C8_amended`: `"!!!"` contains no Base64 alphabet
character and decodes to the empty string. -/
theorem claim_C8_amended_witness : decodeData (strOf "!!!") = [] :=
  claim_C8_amended (strOf "!!!") (by decide)

/-! ## Claims C7 and C9: the third-party import path -/

/-- Importing a document that carries a single third-party provider and no
other section reduces to folding the per-entry processing over its
accounts array. -/
theorem importSettingsRun_singleProviderDoc (pd : ProviderDoc) (s : AppSettings)
    (docs : List AccountDoc)
    (htype : pd.type = ProviderType.third_party) (haccs : pd.accounts = some docs) :
    importSettingsRun (singleProviderDoc pd) s
      = ({ success := true, error := none
           imported := some
             (if (docs.foldl (fun acc d => processThirdEntry false pd.id d acc) (s, 0, 0)).2.1 > 0
              then [ImportLabel.accountsSection
                      (docs.foldl (fun acc d => processThirdEntry false pd.id d acc)
                        (s, 0, 0)).2.1 none]
              else []) },
         (docs.foldl (fun acc d => processThirdEntry false pd.id d acc) (s, 0, 0)).1) := by
  obtain ⟨pid, ptype, pname, puse, pactive, paccs⟩ := pd
  simp only at htype haccs
  subst htype
  subst haccs
  rfl

theorem processThirdEntry_skip (hasSensitiveData : Bool) (providerId : Str)
    (d : AccountDoc) (st : AppSettings × Nat × Nat)
    (hbad : ¬(jsTruthy d.id ∧ jsTruthy d.name ∧ jsTruthy d.baseUrl)) :
    processThirdEntry hasSensitiveData providerId d st = st := by
  unfold processThirdEntry
  rw [if_neg hbad]

/-- Claim C7: a third-party accounts entry with an empty `id`, `name` or
`baseUrl` is silently skipped by `importSettings` — it is not upserted and
not counted, the import still succeeds, and a valid entry in the same
document is still upserted and counted. -/
theorem claim_C7_invalid_entry_skipped (s : AppSettings) (pid nm act : Str)
    (dbad dgood : AccountDoc)
    (hbad : ¬(jsTruthy dbad.id ∧ jsTruthy dbad.name ∧ jsTruthy dbad.baseUrl))
    (hgood : jsTruthy dgood.id ∧ jsTruthy dgood.name ∧ jsTruthy dgood.baseUrl) :
    (∀ hasSens pid2 st, processThirdEntry hasSens pid2 dbad st = st)
  ∧ importSettingsRun
      (singleProviderDoc
        { id := pid, type := ProviderType.third_party, name := nm
          useProxy := true, activeAccountId := act, accounts := some [dbad, dgood] }) s
      = ({ success := true, error := none
           imported := some [ImportLabel.accountsSection 1 none] },
         addThirdPartyAccount s pid (thirdFromDoc false dgood)) := by
  constructor
  · intro hasSens pid2 st
    exact processThirdEntry_skip hasSens pid2 dbad st hbad
  · rw [importSettingsRun_singleProviderDoc _ s [dbad, dgood] rfl rfl]
    have hfold :
        [dbad, dgood].foldl (fun acc d => processThirdEntry false pid d acc) (s, 0, 0)
          = (addThirdPartyAccount s pid (thirdFromDoc false dgood), 1, 0) := by
      simp only [List.foldl]
      rw [processThirdEntry_skip false pid dbad _ hbad]
      unfold processThirdEntry
      rw [if_pos hgood]
      rfl
    rw [hfold]
    rfl

theorem upsertTpById_find_self (l : List Account) (a : ThirdPartyAccount) (i : Str)
    (hid : a.id = i) :
    (upsertTpById l a).find? (fun x => x.idF = some i) = some (Account.thirdParty a) := by
  induction l with
  | nil => exact List.find?_cons_of_pos _ (by simp [Account.idF, hid])
  | cons b rest ih =>
      by_cases hb : b.idF = some a.id
      · simp only [upsertTpById]
        rw [if_pos hb]
        exact List.find?_cons_of_pos _ (by simp [Account.idF, hid])
      · simp only [upsertTpById]
        rw [if_neg hb]
        rw [List.find?_cons_of_neg _ (by simp [← hid]; exact hb)]
        exact ih

theorem upsertById_find_self (l : List ServiceProvider) (P : ServiceProvider) (i : Str)
    (hid : P.id = i) (q : ServiceProvider)
    (hfound : l.find? (fun p => p.id = i) = some q) :
    (upsertById l P).find? (fun p => p.id = i) = some P := by
  induction l with
  | nil => exact Option.noConfusion hfound
  | cons p rest ih =>
      by_cases hp : p.id = P.id
      · simp only [upsertById]
        rw [if_pos hp]
        exact List.find?_cons_of_pos _ (by simp [hp, hid])
      · simp only [upsertById]
        rw [if_neg hp]
        have hpi : ¬(p.id = i) := by rw [← hid]; exact hp
        rw [List.find?_cons_of_neg _ (by simpa using hpi)]
        rw [List.find?_cons_of_neg _ (by simpa using hpi)] at hfound
        exact ih hfound

/-- `addThirdPartyAccount` on an existing provider: the provider (found
again by id) carries the upserted account list and the recomputed active
pointer. -/
theorem addThirdPartyAccount_found (s : AppSettings) (pid : Str) (P : ServiceProvider)
    (hP : findProviderById s pid = some P) (a : ThirdPartyAccount) :
    findProviderById (addThirdPartyAccount s pid a) pid
      = some { P with
          accounts := upsertTpById P.accounts a
          activeAccountId :=
            if P.activeAccountId = [] ∧ upsertTpById P.accounts a ≠ [] then
              match upsertTpById P.accounts a with
              | [] => P.activeAccountId
              | x :: _ => x.idF.getD []
            else P.activeAccountId } := by
  have hPid : P.id = pid := by simpa using List.find?_some hP
  unfold addThirdPartyAccount
  rw [hP]
  unfold findProviderById addServiceProvider
  exact upsertById_find_self _ _ pid hPid P hP

/-- Claim C9: importing a document with `includeSensitiveData` not `true`
that carries a valid third-party entry whose id matches an account already
stored under the same provider replaces the stored account wholesale with
`apiKey = ''`; the previously stored (non-empty) `apiKey` is lost. -/
theorem claim_C9_import_wipes_api_key (s : AppSettings) (pid nm act : Str)
    (P : ServiceProvider) (old : ThirdPartyAccount) (d : AccountDoc)
    (hP : findProviderById s pid = some P)
    (hold : P.accounts.find? (fun x => x.idF = some d.id) = some (Account.thirdParty old))
    (holdKey : old.apiKey ≠ [])
    (hvalid : jsTruthy d.id ∧ jsTruthy d.name ∧ jsTruthy d.baseUrl) :
    ∃ P', findProviderById
        ((importSettingsRun (singleProviderDoc
            { id := pid, type := ProviderType.third_party, name := nm
              useProxy := true, activeAccountId := act, accounts := some [d] }) s).2) pid
      = some P'
    ∧ P'.accounts.find? (fun x => x.idF = some d.id)
        = some (Account.thirdParty (thirdFromDoc false d))
    ∧ (thirdFromDoc false d).apiKey = []
    ∧ (thirdFromDoc false d).apiKey ≠ old.apiKey := by
  have hrun : (importSettingsRun (singleProviderDoc
      { id := pid, type := ProviderType.third_party, name := nm
        useProxy := true, activeAccountId := act, accounts := some [d] }) s).2
      = addThirdPartyAccount s pid (thirdFromDoc false d) := by
    rw [importSettingsRun_singleProviderDoc _ s [d] rfl rfl]
    show ([d].foldl (fun acc x => processThirdEntry false pid x acc) (s, 0, 0)).1 = _
    simp only [List.foldl]
    unfold processThirdEntry
    rw [if_pos hvalid]
  have hfound := addThirdPartyAccount_found s pid P hP (thirdFromDoc false d)
  refine ⟨_, by rw [hrun]; exact hfound, ?_, rfl, ?_⟩
  · exact upsertTpById_find_self _ _ _ rfl
  · intro hc
    exact holdKey (by rw [← hc]; rfl)

/-- Witness for `claim_C7_invalid_entry_skipped` at a concrete input. -/
theorem claim_C7_invalid_entry_skipped_witness :
    (∀ hasSens pid2 st, processThirdEntry hasSens pid2 docBad st = st)
  ∧ importSettingsRun
      (singleProviderDoc
        { id := strOf "prov1", type := ProviderType.third_party, name := strOf "Prov"
          useProxy := true, activeAccountId := [], accounts := some [docBad, docGood] })
      defaultSettings
      = ({ success := true, error := none
           imported := some [ImportLabel.accountsSection 1 none] },
         addThirdPartyAccount defaultSettings (strOf "prov1") (thirdFromDoc false docGood)) :=
  claim_C7_invalid_entry_skipped defaultSettings (strOf "prov1") (strOf "Prov") []
    docBad docGood (by decide) (by decide)

/-- Witness for `claim_C9_import_wipes_api_key` at a concrete input. -/
theorem claim_C9_import_wipes_api_key_witness :
    ∃ P', findProviderById
        ((importSettingsRun (singleProviderDoc
            { id := strOf "prov1", type := ProviderType.third_party, name := strOf "Prov"
              useProxy := true, activeAccountId := [], accounts := some [docNew] })
          c9State).2) (strOf "prov1")
      = some P'
    ∧ P'.accounts.find? (fun x => x.idF = some docNew.id)
        = some (Account.thirdParty (thirdFromDoc false docNew))
    ∧ (thirdFromDoc false docNew).apiKey = []
    ∧ (thirdFromDoc false docNew).apiKey ≠ tpAcc1.apiKey :=
  claim_C9_import_wipes_api_key c9State (strOf "prov1") (strOf "Prov") []
    c9Provider tpAcc1 docNew (by decide) (by decide) (by decide) (by decide)

theorem providerOkB_iff (p : ServiceProvider) :
    providerOkB p = true ↔
      p.activeAccountId = [] ∨ ∃ a ∈ p.accounts, natKeyA a = p.activeAccountId := by
  simp [providerOkB, List.any_eq_true]

theorem registryInvB_iff (s : AppSettings) :
    registryInvB s = true ↔ ∀ p ∈ s.serviceProviders, providerOkB p = true := by
  simp [registryInvB, List.all_eq_true]

theorem providerOkB_upsertById (l : List ServiceProvider) (P : ServiceProvider)
    (hl : ∀ p ∈ l, providerOkB p = true) (hP : providerOkB P = true) :
    ∀ p ∈ upsertById l P, providerOkB p = true := by
  induction l with
  | nil =>
      intro p hp
      rw [show upsertById [] P = [P] from rfl, List.mem_singleton] at hp
      exact hp ▸ hP
  | cons q rest ih =>
      intro p hp
      by_cases hq : q.id = P.id
      · rw [upsertById, if_pos hq] at hp
        rcases List.mem_cons.mp hp with rfl | hr
        · exact hP
        · exact hl p (by simp [hr])
      · rw [upsertById, if_neg hq] at hp
        rcases List.mem_cons.mp hp with rfl | hr
        · exact hl p (by simp)
        · exact ih (fun x hx => hl x (by simp [hx])) p hr

theorem natKeyA_of_emailF (a : Account) (e : Str) (h : a.emailAddressF = some e) :
    natKeyA a = e := by
  cases a with
  | official c => simpa [Account.emailAddressF, natKeyA] using h
  | thirdParty t => simp [Account.emailAddressF] at h

/-- The provider rebuilt by `updateClaudeAccounts` always satisfies the
per-provider invariant (its new active pointer is empty, a surviving key,
or the first incoming email — all present in the merged list). -/
theorem providerOkB_merged (s : AppSettings) (accs : List ClaudeAccount) :
    providerOkB (mergedClaudeProvider s accs) = true := by
  rw [providerOkB_iff, mergedClaudeProvider_active]
  have haccs : (mergedClaudeProvider s accs).accounts
      = accs.foldl mergeClaudeStep ((findOfficial s).getD freshClaudeProvider).accounts := rfl
  rw [haccs]
  by_cases hf : (accs.find? (fun acc =>
      acc.emailAddress = ((findOfficial s).getD freshClaudeProvider).activeAccountId)).isSome = true
  · rw [if_pos hf]
    rcases List.find?_isSome.mp hf with ⟨c, hc, hce⟩
    have hce' : c.emailAddress
        = ((findOfficial s).getD freshClaudeProvider).activeAccountId := by simpa using hce
    right
    rcases mergeFold_key_incoming accs _ c hc with ⟨a, ha, hae⟩
    exact ⟨a, ha, by rw [natKeyA_of_emailF a _ hae, hce']⟩
  · rw [if_neg hf]
    cases accs with
    | nil => exact Or.inl rfl
    | cons c rest =>
        right
        rcases mergeFold_key_incoming (c :: rest) _ c (by simp) with ⟨a, ha, hae⟩
        exact ⟨a, ha, natKeyA_of_emailF a _ hae⟩

/-- `upsertTpById` preserves presence of every natural key (a replaced
element is replaced by a third-party record with the same id). -/
theorem upsertTpById_key_mem (l : List Account) (a : ThirdPartyAccount) (k : Str)
    (h : ∃ w ∈ l, natKeyA w = k) : ∃ w ∈ upsertTpById l a, natKeyA w = k := by
  induction l with
  | nil => simp at h
  | cons b rest ih =>
      rcases h with ⟨w, hw, hwk⟩
      by_cases hb : b.idF = some a.id
      · rw [upsertTpById, if_pos hb]
        rcases List.mem_cons.mp hw with rfl | hr
        · cases w with
          | official c => simp [Account.idF] at hb
          | thirdParty t =>
              have htid : t.id = a.id := by simpa [Account.idF] using hb
              refine ⟨Account.thirdParty a, by simp, ?_⟩
              simp only [natKeyA] at hwk ⊢
              rw [← htid]
              exact hwk
        · exact ⟨w, by simp [hr], hwk⟩
      · rw [upsertTpById, if_neg hb]
        rcases List.mem_cons.mp hw with rfl | hr
        · exact ⟨w, by simp, hwk⟩
        · rcases ih ⟨w, hr, hwk⟩ with ⟨w2, hw2, hwk2⟩
          exact ⟨w2, by simp [hw2], hwk2⟩

/-- Filtering out one third-party id preserves every other natural key
(official records are never removed by the filter). -/
theorem filter_key_mem_of_ne (l : List Account) (aid k : Str) (hk : k ≠ aid)
    (h : ∃ w ∈ l, natKeyA w = k) :
    ∃ w ∈ l.filter (fun acc => acc.idF ≠ some aid), natKeyA w = k := by
  rcases h with ⟨w, hw, hwk⟩
  refine ⟨w, List.mem_filter.mpr ⟨hw, ?_⟩, hwk⟩
  cases w with
  | official c => simp [Account.idF]
  | thirdParty t =>
      simp only [natKeyA] at hwk
      simp [Account.idF, hwk, hk]

/-- The provider record built by `addThirdPartyAccount` satisfies the
per-provider invariant whenever the prior provider does. -/
theorem providerOkB_upsertThird_record (p : ServiceProvider) (a : ThirdPartyAccount)
    (hp : providerOkB p = true) :
    providerOkB { p with
      accounts := upsertTpById p.accounts a
      activeAccountId :=
        if p.activeAccountId = [] ∧ upsertTpById p.accounts a ≠ [] then
          match upsertTpById p.accounts a with
          | [] => p.activeAccountId
          | x :: _ => x.idF.getD []
        else p.activeAccountId } = true := by
  rw [providerOkB_iff]
  show (if p.activeAccountId = [] ∧ upsertTpById p.accounts a ≠ [] then
          match upsertTpById p.accounts a with
          | [] => p.activeAccountId
          | x :: _ => x.idF.getD []
        else p.activeAccountId) = []
    ∨ ∃ w ∈ upsertTpById p.accounts a, natKeyA w =
        (if p.activeAccountId = [] ∧ upsertTpById p.accounts a ≠ [] then
          match upsertTpById p.accounts a with
          | [] => p.activeAccountId
          | x :: _ => x.idF.getD []
        else p.activeAccountId)
  by_cases hc : p.activeAccountId = [] ∧ upsertTpById p.accounts a ≠ []
  · rw [if_pos hc]
    rcases hc with ⟨h0, hne⟩
    cases hacc : upsertTpById p.accounts a with
    | nil => exact absurd hacc hne
    | cons x rest =>
        cases x with
        | official c => exact Or.inl (by simp [Account.idF])
        | thirdParty t =>
            right
            exact ⟨Account.thirdParty t, by simp, by simp [natKeyA, Account.idF]⟩
  · rw [if_neg hc]
    rcases (providerOkB_iff p).mp hp with h0 | hkey
    · exact Or.inl h0
    · exact Or.inr (upsertTpById_key_mem _ a _ hkey)

/-- The provider record built by `removeThirdPartyAccount` satisfies the
per-provider invariant whenever the prior provider does. -/
theorem providerOkB_removeThird_record (p : ServiceProvider) (aid : Str)
    (hp : providerOkB p = true) :
    providerOkB { p with
      accounts := p.accounts.filter (fun acc => acc.idF ≠ some aid)
      activeAccountId :=
        if p.activeAccountId = aid then
          match p.accounts.filter (fun acc => acc.idF ≠ some aid) with
          | [] => []
          | x :: _ => x.idF.getD []
        else p.activeAccountId } = true := by
  rw [providerOkB_iff]
  show (if p.activeAccountId = aid then
          match p.accounts.filter (fun acc => acc.idF ≠ some aid) with
          | [] => []
          | x :: _ => x.idF.getD []
        else p.activeAccountId) = []
    ∨ ∃ w ∈ p.accounts.filter (fun acc => acc.idF ≠ some aid), natKeyA w =
        (if p.activeAccountId = aid then
          match p.accounts.filter (fun acc => acc.idF ≠ some aid) with
          | [] => []
          | x :: _ => x.idF.getD []
        else p.activeAccountId)
  by_cases hc : p.activeAccountId = aid
  · rw [if_pos hc]
    cases hacc : p.accounts.filter (fun acc => acc.idF ≠ some aid) with
    | nil => exact Or.inl rfl
    | cons x rest =>
        cases x with
        | official c => exact Or.inl (by simp [Account.idF])
        | thirdParty t =>
            right
            exact ⟨Account.thirdParty t, by simp, by simp [natKeyA, Account.idF]⟩
  · rw [if_neg hc]
    rcases (providerOkB_iff p).mp hp with h0 | hkey
    · exact Or.inl h0
    · exact Or.inr (filter_key_mem_of_ne _ aid _ hc hkey)

theorem natKeys_setAuthByEmailFirst (l : List Account) (e t : Str) :
    (setAuthByEmailFirst l e t).map natKeyA = l.map natKeyA := by
  induction l with
  | nil => rfl
  | cons a rest ih =>
      rw [show setAuthByEmailFirst (a :: rest) e t
          = (if a.emailAddressF = some e then
              (match a with
                | Account.official c => Account.official { c with authorization := some t }
                | Account.thirdParty t2 => Account.thirdParty t2) :: rest
            else a :: setAuthByEmailFirst rest e t) from rfl]
      by_cases h : a.emailAddressF = some e
      · rw [if_pos h]
        cases a with
        | official c => simp [natKeyA]
        | thirdParty t2 => simp [natKeyA]
      · rw [if_neg h]
        simp [ih]

theorem key_mem_setAuthByEmailFirst (l : List Account) (e t k : Str)
    (h : ∃ w ∈ l, natKeyA w = k) : ∃ w ∈ setAuthByEmailFirst l e t, natKeyA w = k := by
  rcases h with ⟨w, hw, hwk⟩
  have hmem : k ∈ (setAuthByEmailFirst l e t).map natKeyA := by
    rw [natKeys_setAuthByEmailFirst]
    exact List.mem_map.mpr ⟨w, hw, hwk⟩
  rcases List.mem_map.mp hmem with ⟨w2, hw2, hwk2⟩
  exact ⟨w2, hw2, hwk2⟩

/-- One side-condition-respecting mutator call preserves the registry
invariant. -/
theorem registryInvB_applyOp (s : AppSettings) (op : MutatorOp)
    (hs : registryInvB s = true) (hop : opOkB s op = true) :
    registryInvB (applyOp s op) = true := by
  have hall := (registryInvB_iff s).mp hs
  cases op with
  | addProvider p =>
      rw [registryInvB_iff]
      exact providerOkB_upsertById _ _ hall (by simpa [opOkB] using hop)
  | removeProvider i =>
      rw [registryInvB_iff]
      intro p hp
      exact hall p (List.mem_of_mem_filter hp)
  | setActiveProviderOp i => exact hs
  | setActiveAccountOp pid aid =>
      show registryInvB (setActiveAccount s pid aid) = true
      simp only [opOkB] at hop
      cases hfind : findProviderById s pid with
      | none =>
          unfold setActiveAccount
          rw [hfind]
          exact hs
      | some p =>
          unfold setActiveAccount
          rw [hfind]
          rw [hfind] at hop
          rw [registryInvB_iff]
          exact providerOkB_upsertById _ _ hall hop
  | setProxyUsage pid b =>
      show registryInvB (setProviderProxyUsage s pid b) = true
      cases hfind : findProviderById s pid with
      | none =>
          unfold setProviderProxyUsage
          rw [hfind]
          exact hs
      | some p =>
          unfold setProviderProxyUsage
          rw [hfind]
          have hfind' : s.serviceProviders.find? (fun q => q.id = pid) = some p := hfind
          have hp : providerOkB p = true := hall p (List.mem_of_find?_eq_some hfind')
          rw [registryInvB_iff]
          exact providerOkB_upsertById _ _ hall hp
  | mergeOfficial accs =>
      rw [registryInvB_iff]
      exact providerOkB_upsertById _ _ hall (providerOkB_merged s accs)
  | updateCredential e a =>
      show registryInvB (updateClaudeAccountAuthorization s e a) = true
      cases hfind : findOfficial s with
      | none =>
          unfold updateClaudeAccountAuthorization
          rw [hfind]
          exact hs
      | some cp =>
          unfold updateClaudeAccountAuthorization
          rw [hfind]
          have hfind' : s.serviceProviders.find?
              (fun q => q.type = ProviderType.claude_official) = some cp := hfind
          have hcp : providerOkB cp = true := hall cp (List.mem_of_find?_eq_some hfind')
          show registryInvB
            (if (cp.accounts.find? (fun acc => acc.emailAddressF = some e)).isSome = true then
              addServiceProvider s { cp with accounts := setAuthByEmailFirst cp.accounts e a }
            else s) = true
          by_cases hacc : (cp.accounts.find?
              (fun acc => acc.emailAddressF = some e)).isSome = true
          · rw [if_pos hacc]
            rw [registryInvB_iff]
            refine providerOkB_upsertById _ _ hall ?_
            rw [providerOkB_iff]
            rcases (providerOkB_iff cp).mp hcp with h0 | hkey
            · exact Or.inl h0
            · exact Or.inr (key_mem_setAuthByEmailFirst _ _ _ _ hkey)
          · rw [if_neg hacc]
            exact hs
  | upsertThird pid a =>
      show registryInvB (addThirdPartyAccount s pid a) = true
      cases hfind : findProviderById s pid with
      | none =>
          unfold addThirdPartyAccount
          rw [hfind]
          rw [registryInvB_iff]
          refine providerOkB_upsertById _ _ hall ?_
          exact providerOkB_upsertThird_record
            { id := pid, type := ProviderType.third_party, name := a.name
              accounts := [], activeAccountId := [], useProxy := true } a
            (by simp [providerOkB])
      | some p =>
          unfold addThirdPartyAccount
          rw [hfind]
          have hfind' : s.serviceProviders.find? (fun q => q.id = pid) = some p := hfind
          have hp : providerOkB p = true := hall p (List.mem_of_find?_eq_some hfind')
          rw [registryInvB_iff]
          exact providerOkB_upsertById _ _ hall (providerOkB_upsertThird_record p a hp)
  | removeThird pid aid =>
      show registryInvB (removeThirdPartyAccount s pid aid) = true
      cases hfind : findProviderById s pid with
      | none =>
          unfold removeThirdPartyAccount
          rw [hfind]
          exact hs
      | some p =>
          unfold removeThirdPartyAccount
          rw [hfind]
          have hfind' : s.serviceProviders.find? (fun q => q.id = pid) = some p := hfind
          have hp : providerOkB p = true := hall p (List.mem_of_find?_eq_some hfind')
          rw [registryInvB_iff]
          exact providerOkB_upsertById _ _ hall (providerOkB_removeThird_record p aid hp)

/-- Claim C3, counterexample.  Starting from the default (empty) registry,
the two listed mutator calls `addServiceProvider` (with a harmless,
invariant-satisfying provider) followed by `setActiveAccount` with a key
naming no account leave the provider's `activeAccountKey` dangling:
`setActiveAccount` stores the key without any membership check. -/
theorem claim_C3_counterexample :
    registryInvB (applyOps defaultSettings
      [MutatorOp.addProvider emptyProviderP,
       MutatorOp.setActiveAccountOp (strOf "p") (strOf "ghost")]) = false := by
  decide

/-- Claim C3, amended: starting from any invariant-satisfying registry,
the invariant (every provider's `activeAccountId` is empty or the natural
key of one of its accounts) holds after every finite sequence of mutator
calls, *provided* each `addServiceProvider` argument itself satisfies the
per-provider invariant and each `setActiveAccount` call passes an empty
key or the key of an account present in the target provider; the other
seven mutators need no side condition.  Without the two side conditions
the invariant can be violated (see the counterexample). -/
theorem claim_C3_amended (ops : List MutatorOp) (s : AppSettings)
    (hs : registryInvB s = true) (hops : opsOkB s ops = true) :
    registryInvB (applyOps s ops) = true := by
  induction ops generalizing s with
  | nil => exact hs
  | cons op rest ih =>
      rw [show opsOkB s (op :: rest) = (opOkB s op && opsOkB (applyOp s op) rest) from rfl,
        Bool.and_eq_true] at hops
      exact ih (applyOp s op) (registryInvB_applyOp s op hs hops.1) hops.2

/-- Witness for `claim_C3_amended`: a concrete sequence exercising upsert,
set-active, merge, proxy toggle and removal. -/
theorem claim_C3_amended_witness :
    registryInvB (applyOps defaultSettings
      [MutatorOp.upsertThird (strOf "p") tpAcc1,
       MutatorOp.setActiveAccountOp (strOf "p") (strOf "k1"),
       MutatorOp.mergeOfficial [accT],
       MutatorOp.setProxyUsage (strOf "p") false,
       MutatorOp.removeThird (strOf "p") (strOf "k1")]) = true :=
  claim_C3_amended
    [MutatorOp.upsertThird (strOf "p") tpAcc1,
     MutatorOp.setActiveAccountOp (strOf "p") (strOf "k1"),
     MutatorOp.mergeOfficial [accT],
     MutatorOp.setProxyUsage (strOf "p") false,
     MutatorOp.removeThird (strOf "p") (strOf "k1")]
    defaultSettings (by decide) (by decide)

/-! ## Claim C2: the export/import round trip -/

theorem mergeClaudeStep_no_match (acc : List Account) (c : ClaudeAccount)
    (h : ∀ a ∈ acc, a.emailAddressF ≠ some c.emailAddress) :
    mergeClaudeStep acc c = acc ++ [Account.official c] := by
  induction acc with
  | nil => rfl
  | cons a rest ih =>
      rw [mergeClaudeStep, if_neg (h a (by simp)), ih (fun x hx => h x (by simp [hx]))]
      rfl

/-- Merging a list of accounts with pairwise-distinct emails, none of
which occurs in the existing list, appends them all in order. -/
theorem mergeFold_append_of_disjoint (accs : List ClaudeAccount) (acc : List Account)
    (hdisj : ∀ c ∈ accs, ∀ a ∈ acc, a.emailAddressF ≠ some c.emailAddress)
    (hnodup : (accs.map (fun c => c.emailAddress)).Nodup) :
    accs.foldl mergeClaudeStep acc = acc ++ accs.map Account.official := by
  induction accs generalizing acc with
  | nil => simp
  | cons c rest ih =>
      have hstep : mergeClaudeStep acc c = acc ++ [Account.official c] :=
        mergeClaudeStep_no_match acc c (hdisj c (by simp) · ·)
      show rest.foldl mergeClaudeStep (mergeClaudeStep acc c) = _
      rw [hstep, ih (acc ++ [Account.official c]) ?_ (by simpa using hnodup.of_cons)]
      · simp
      · intro d hd a ha
        rcases List.mem_append.mp ha with haa | hab
        · exact hdisj d (by simp [hd]) a haa
        · rw [List.mem_singleton.mp hab]
          intro hcontra
          have : c.emailAddress = d.emailAddress := by
            simpa [Account.emailAddressF] using hcontra
          have hnotin := (List.nodup_cons.mp hnodup).1
          exact hnotin (List.mem_map.mpr ⟨d, hd, this.symm⟩)

theorem upsertTpById_no_match (l : List Account) (a : ThirdPartyAccount)
    (h : ∀ x ∈ l, x.idF ≠ some a.id) :
    upsertTpById l a = l ++ [Account.thirdParty a] := by
  induction l with
  | nil => rfl
  | cons x rest ih =>
      rw [upsertTpById, if_neg (h x (by simp)), ih (fun y hy => h y (by simp [hy]))]
      rfl

theorem find_id_eq_none (l : List ServiceProvider) (pid : Str)
    (h : ∀ p ∈ l, p.id ≠ pid) :
    l.find? (fun p => p.id = pid) = none :=
  List.find?_eq_none.mpr (fun p hp => by simpa using h p hp)

theorem find_id_base_append (base : List ServiceProvider) (P : ServiceProvider) (pid : Str)
    (hbase : ∀ p ∈ base, p.id ≠ pid) (hP : P.id = pid) :
    (base ++ [P]).find? (fun p => p.id = pid) = some P := by
  induction base with
  | nil => exact List.find?_cons_of_pos _ (by simp [hP])
  | cons q rest ih =>
      rw [List.cons_append, List.find?_cons_of_neg _ (by simpa using hbase q (by simp))]
      exact ih (fun p hp => hbase p (by simp [hp]))

theorem upsertById_base_append (base : List ServiceProvider) (P P' : ServiceProvider)
    (pid : Str) (hbase : ∀ p ∈ base, p.id ≠ pid) (hP : P.id = pid) (hP' : P'.id = pid) :
    upsertById (base ++ [P]) P' = base ++ [P'] := by
  induction base with
  | nil =>
      rw [List.nil_append, upsertById, if_pos (by rw [hP, hP'])]
      rfl
  | cons q rest ih =>
      rw [List.cons_append, upsertById,
        if_neg (by rw [hP']; exact hbase q (by simp)),
        ih (fun p hp => hbase p (by simp [hp]))]
      rfl

/-- Export followed by import reproduces an official account exactly,
except that an empty or absent credential comes back absent. -/
theorem officialFromDoc_export (c : ClaudeAccount)
    (hb : ∀ v, c.authorization = some v → allBytes v) :
    officialFromDoc true (exportOfficialAccountDoc true (Account.official c))
      = { c with authorization :=
            if jsTruthyOpt c.authorization then c.authorization else none } := by
  cases hauth : c.authorization with
  | none =>
      simp [officialFromDoc, exportOfficialAccountDoc, jsTruthyOpt, jsTruthy, hauth]
  | some v =>
      cases hv : v with
      | nil =>
          simp [officialFromDoc, exportOfficialAccountDoc, jsTruthyOpt, jsTruthy, hauth, hv]
      | cons b bs =>
          have hne : encodeData v ≠ [] := encodeData_ne_nil v (by simp [hv])
          have hdec : decodeData (encodeData v) = v :=
            decodeData_encodeData v (hb v hauth)
          rw [hv] at hne hdec
          simp [officialFromDoc, exportOfficialAccountDoc, jsTruthyOpt, jsTruthy, hauth,
            hv, hne, hdec]

/-- Export followed by import reproduces a third-party account exactly
(`apiKey` included, empty or not), except that the description is
normalized to a present string. -/
theorem thirdFromDoc_export (t : ThirdPartyAccount) (hb : allBytes t.apiKey) :
    thirdFromDoc true (exportThirdAccountDoc true (Account.thirdParty t))
      = { t with description := some (t.description.getD []) } := by
  cases hkey : t.apiKey with
  | nil =>
      simp [thirdFromDoc, exportThirdAccountDoc, jsTruthy, hkey]
  | cons b bs =>
      have hne : encodeData t.apiKey ≠ [] := encodeData_ne_nil _ (by simp [hkey])
      have hdec : decodeData (encodeData t.apiKey) = t.apiKey :=
        decodeData_encodeData _ hb
      rw [hkey] at hne hdec
      simp [thirdFromDoc, exportThirdAccountDoc, jsTruthy, hkey, hne, hdec]

/-- `updateClaudeAccounts` on a registry with no official-typed provider
and no provider bearing the id `claude_official`: the freshly built
official provider holding exactly the incoming accounts is appended. -/
theorem updateClaudeAccounts_fresh (s : AppSettings) (L : List ClaudeAccount)
    (hempty : findOfficial s = none)
    (hnoid : ∀ p ∈ s.serviceProviders, p.id ≠ claudeOfficialId)
    (hnodup : (L.map (fun c => c.emailAddress)).Nodup)
    (hne : ∀ c ∈ L, c.emailAddress ≠ []) :
    (updateClaudeAccounts s L).serviceProviders
      = s.serviceProviders ++
        [{ id := claudeOfficialId, type := ProviderType.claude_official
           name := claudeOfficialName
           accounts := L.map Account.official
           activeAccountId := headEmail L
           useProxy := true }] := by
  have hfind : (L.find? (fun acc =>
      acc.emailAddress = freshClaudeProvider.activeAccountId)) = none :=
    List.find?_eq_none.mpr (fun c hc => by
      simpa [freshClaudeProvider] using hne c hc)
  have hfold : L.foldl mergeClaudeStep freshClaudeProvider.accounts
      = L.map Account.official := by
    have hd := mergeFold_append_of_disjoint L freshClaudeProvider.accounts
      (by intro c hc a ha; simp [freshClaudeProvider] at ha) hnodup
    simpa [freshClaudeProvider] using hd
  have hmerged : mergedClaudeProvider s L
      = { id := claudeOfficialId, type := ProviderType.claude_official
          name := claudeOfficialName
          accounts := L.map Account.official
          activeAccountId := headEmail L
          useProxy := true } := by
    unfold mergedClaudeProvider
    rw [hempty, Option.getD_none, hfind, hfold]
    cases L with
    | nil => rfl
    | cons c rest => rfl
  show upsertById s.serviceProviders (mergedClaudeProvider s L) = _
  rw [hmerged]
  refine upsertById_of_no_match _ _ ?_
  intro p hp
  exact hnoid p hp

/-- The state component threaded by the third-party entry loop, when all
entries are valid. -/
theorem processThird_fold_state (hasSens : Bool) (pid : Str) (ds : List AccountDoc)
    (hvalid : ∀ d ∈ ds, jsTruthy d.id ∧ jsTruthy d.name ∧ jsTruthy d.baseUrl) :
    ∀ st : AppSettings × Nat × Nat,
      (ds.foldl (fun acc d => processThirdEntry hasSens pid d acc) st).1
        = ds.foldl (fun s2 d => addThirdPartyAccount s2 pid (thirdFromDoc hasSens d)) st.1 := by
  induction ds with
  | nil => intro st; rfl
  | cons d rest ih =>
      intro st
      have hstep : processThirdEntry hasSens pid d st
          = (addThirdPartyAccount st.1 pid (thirdFromDoc hasSens d),
             st.2.1 + 1,
             st.2.2 + if hasSens ∧ jsTruthy d.apiKey then 1 else 0) := by
        unfold processThirdEntry
        rw [if_pos (hvalid d (by simp))]
      show (rest.foldl (fun acc x => processThirdEntry hasSens pid x acc)
          (processThirdEntry hasSens pid d st)).1 = _
      rw [hstep]
      exact ih (fun x hx => hvalid x (by simp [hx])) _

theorem addThirdPartyAccount_providers (s : AppSettings) (pid : Str) (P : ServiceProvider)
    (hP : findProviderById s pid = some P) (a : ThirdPartyAccount) :
    (addThirdPartyAccount s pid a).serviceProviders
      = upsertById s.serviceProviders
          { P with
            accounts := upsertTpById P.accounts a
            activeAccountId :=
              if P.activeAccountId = [] ∧ upsertTpById P.accounts a ≠ [] then
                match upsertTpById P.accounts a with
                | [] => P.activeAccountId
                | x :: _ => x.idF.getD []
              else P.activeAccountId } := by
  unfold addThirdPartyAccount
  rw [hP]
  rfl

theorem addThirdPartyAccount_providers_none (s : AppSettings) (pid : Str)
    (hP : findProviderById s pid = none) (a : ThirdPartyAccount) :
    (addThirdPartyAccount s pid a).serviceProviders
      = upsertById s.serviceProviders
          { id := pid, type := ProviderType.third_party, name := a.name
            accounts := [Account.thirdParty a], activeAccountId := a.id, useProxy := true } := by
  unfold addThirdPartyAccount
  rw [hP]
  rfl

/-- Folding `addThirdPartyAccount` over fresh, valid, distinct-id
accounts extends the provider built from the first account, appending the
accounts in order and keeping the first account active. -/
theorem fold_addThird_build (pid : Str) (base : List ServiceProvider)
    (first : ThirdPartyAccount)
    (hbase : ∀ p ∈ base, p.id ≠ pid) (hfirst : first.id ≠ []) :
    ∀ (ts done : List ThirdPartyAccount) (st : AppSettings),
      st.serviceProviders = base ++
        [{ id := pid, type := ProviderType.third_party, name := first.name
           accounts := done.map Account.thirdParty
           activeAccountId := first.id, useProxy := true }] →
      (∀ t ∈ ts, ∀ t2 ∈ done, t2.id ≠ t.id) →
      (ts.map (fun t => t.id)).Nodup →
      (ts.foldl (fun s2 t => addThirdPartyAccount s2 pid t) st).serviceProviders
        = base ++
          [{ id := pid, type := ProviderType.third_party, name := first.name
             accounts := (done ++ ts).map Account.thirdParty
             activeAccountId := first.id, useProxy := true }] := by
  intro ts
  induction ts with
  | nil =>
      intro done st hst _ _
      simpa using hst
  | cons t rest ih =>
      intro done st hst hdisj hnodup
      have hfind : findProviderById st pid
          = some { id := pid, type := ProviderType.third_party, name := first.name
                   accounts := done.map Account.thirdParty
                   activeAccountId := first.id, useProxy := true } := by
        unfold findProviderById
        rw [hst]
        exact find_id_base_append base _ pid hbase rfl
      have hup : upsertTpById (done.map Account.thirdParty) t
          = (done ++ [t]).map Account.thirdParty := by
        rw [upsertTpById_no_match]
        · simp
        · intro x hx
          rcases List.mem_map.mp hx with ⟨t2, ht2, rfl⟩
          simpa [Account.idF] using hdisj t (by simp) t2 ht2
      have hprov := addThirdPartyAccount_providers st pid _ hfind t
      dsimp only at hprov
      rw [hup, if_neg (fun hcon => hfirst hcon.1), hst,
        upsertById_base_append base _ _ pid hbase rfl rfl] at hprov
      show (rest.foldl (fun s2 x => addThirdPartyAccount s2 pid x)
          (addThirdPartyAccount st pid t)).serviceProviders = _
      have hres := ih (done ++ [t]) (addThirdPartyAccount st pid t) hprov
        (fun x hx t2 ht2 => by
          rcases List.mem_append.mp ht2 with h1 | h2
          · exact hdisj x (by simp [hx]) t2 h1
          · rw [List.mem_singleton.mp h2]
            intro hcon
            exact (List.nodup_cons.mp hnodup).1
              (List.mem_map.mpr ⟨x, hx, hcon.symm⟩))
        (by simpa using hnodup.of_cons)
      simpa [List.append_assoc] using hres

/-- Unfolding `importSettingsRun ∘ exportSettingsDoc` to the section
processing (pure computation). -/
theorem importSettingsRun_export_state (s s0 : AppSettings) (incl : Bool) :
    (importSettingsRun (exportSettingsDoc s incl) s0).2
      = (importSections incl
          { proxyConfig := some
              { enabled := s.proxyConfig.enabled, url := s.proxyConfig.url
                auth :=
                  if incl then
                    s.proxyConfig.auth.map (fun a =>
                      { username := encodeData a.username
                        password := encodeData a.password })
                  else none }
            terminal := some s.terminal
            projectFilter := some s.projectFilter
            serviceProviders := some (s.serviceProviders.map (exportProviderDoc incl)) }
          s0).1 := rfl

/-- The sections before `serviceProviders` do not touch the provider
list; the provider section is a fold from some state with the original
providers. -/
theorem importSections_providers (hasSens : Bool) (sd : SettingsDoc) (s : AppSettings)
    (pds : List ProviderDoc) (h : sd.serviceProviders = some pds) :
    ∃ s3 : AppSettings,
      (importSections hasSens sd s).1 = (pds.foldl (processProviderDoc hasSens) (s3, 0, 0)).1
      ∧ s3.serviceProviders = s.serviceProviders := by
  obtain ⟨pc, term, pf, sp⟩ := sd
  simp only at h
  subst h
  cases pc <;> cases term <;> cases pf <;> exact ⟨_, rfl, rfl⟩

theorem jsTruthy_iff (s : Str) : jsTruthy s = true ↔ s ≠ [] := by
  cases s <;> simp [jsTruthy]

/-- `importSettingsRun ∘ exportSettingsDoc` touches the provider list only
through the provider-section fold, starting from a state carrying the
destination's providers. -/
theorem importSettingsRun_export_providers (s s0 : AppSettings) (incl : Bool) :
    ∃ s3 : AppSettings,
      (importSettingsRun (exportSettingsDoc s incl) s0).2
        = ((s.serviceProviders.map (exportProviderDoc incl)).foldl
            (processProviderDoc incl) (s3, 0, 0)).1
      ∧ s3.serviceProviders = s0.serviceProviders := by
  obtain ⟨s3, heq, hs3⟩ := importSections_providers incl
    { proxyConfig := some
        { enabled := s.proxyConfig.enabled, url := s.proxyConfig.url
          auth :=
            if incl then
              s.proxyConfig.auth.map (fun a =>
                { username := encodeData a.username
                  password := encodeData a.password })
            else none }
      terminal := some s.terminal
      projectFilter := some s.projectFilter
      serviceProviders := some (s.serviceProviders.map (exportProviderDoc incl)) }
    s0 (s.serviceProviders.map (exportProviderDoc incl)) rfl
  exact ⟨s3, by rw [importSettingsRun_export_state s s0 incl]; exact heq, hs3⟩

/-- Claim C2, counterexample.  A registry whose official provider has
`useProxy = false`: export with sensitive data, import into a fresh
registry.  The claim demands all public provider fields be reproduced, but
the official provider is rebuilt through the merge path with
`useProxy = true`. -/
theorem claim_C2_counterexample :
    (findOfficial { defaultSettings with serviceProviders :=
        [{ id := claudeOfficialId, type := ProviderType.claude_official
           name := claudeOfficialName, accounts := [Account.official accT]
           activeAccountId := strOf "a@x.com", useProxy := false }] }).map
        (fun p => p.useProxy) = some false
  ∧ (findOfficial ((importSettingsRun
        (exportSettingsDoc { defaultSettings with serviceProviders :=
          [{ id := claudeOfficialId, type := ProviderType.claude_official
             name := claudeOfficialName, accounts := [Account.official accT]
             activeAccountId := strOf "a@x.com", useProxy := false }] } true)
        defaultSettings).2)).map (fun p => p.useProxy) = some true := by
  exact ⟨by decide, by decide⟩

/-- Claim C2, amended: exporting with sensitive data included and
importing into a fresh registry reproduces account-level data, not
provider-level fields.  Stated for a registry of one official provider and
one third-party provider with well-formed account lists (pairwise-distinct
non-empty natural keys, byte-string credentials): obfuscation followed by
de-obfuscation is the identity on every byte string including the empty
one; every official account comes back with all public fields and every
non-empty credential equal to the originals (an empty/absent credential
comes back absent); every third-party account comes back with id, name,
baseUrl and apiKey (empty or not) equal to the originals (the description
is normalized to a present, possibly empty, string).  The provider-level
fields are rebuilt, not restored: the official provider gets id
`claude_official`, name `Claude Official`, `useProxy = true` and the first
imported email as active key; the third-party provider gets the first
account's name, `useProxy = true`, and the first account id as active
key. -/
theorem claim_C2_amended (s : AppSettings) (offP tpP : ServiceProvider)
    (offAccs : List ClaudeAccount) (t0 : ThirdPartyAccount) (trest : List ThirdPartyAccount)
    (hsp : s.serviceProviders = [offP, tpP])
    (hOffType : offP.type = ProviderType.claude_official)
    (hOffAccs : offP.accounts = offAccs.map Account.official)
    (hTpType : tpP.type = ProviderType.third_party)
    (hTpAccs : tpP.accounts = (t0 :: trest).map Account.thirdParty)
    (hTpId : tpP.id ≠ claudeOfficialId)
    (hEmailsNodup : (offAccs.map (fun c => c.emailAddress)).Nodup)
    (hEmailsNe : ∀ c ∈ offAccs, c.emailAddress ≠ [])
    (hAuthBytes : ∀ c ∈ offAccs, ∀ v, c.authorization = some v → allBytes v)
    (hIdsNodup : ((t0 :: trest).map (fun t => t.id)).Nodup)
    (hTpValid : ∀ t ∈ t0 :: trest, t.id ≠ [] ∧ t.name ≠ [] ∧ t.baseUrl ≠ [])
    (hKeyBytes : ∀ t ∈ t0 :: trest, allBytes t.apiKey) :
    (∀ bs : Str, allBytes bs → decodeData (encodeData bs) = bs)
  ∧ findOfficial ((importSettingsRun (exportSettingsDoc s true) defaultSettings).2)
      = some { id := claudeOfficialId, type := ProviderType.claude_official
               name := claudeOfficialName
               accounts := offAccs.map (fun c => Account.official
                 { c with authorization :=
                     if jsTruthyOpt c.authorization then c.authorization else none })
               activeAccountId := headEmail offAccs
               useProxy := true }
  ∧ findProviderById ((importSettingsRun (exportSettingsDoc s true) defaultSettings).2) tpP.id
      = some { id := tpP.id, type := ProviderType.third_party
               name := t0.name
               accounts := (t0 :: trest).map (fun t => Account.thirdParty
                 { t with description := some (t.description.getD []) })
               activeAccountId := t0.id
               useProxy := true } := by
  obtain ⟨oid, otype, oname, oaccs, oactive, ouse⟩ := offP
  obtain ⟨tid, ttype, tname, taccs, tactive, tuse⟩ := tpP
  dsimp only at hOffType hOffAccs hTpType hTpAccs hTpId ⊢
  subst hOffType
  subst hTpType
  subst hOffAccs
  subst hTpAccs
  obtain ⟨s3, hrt, hs3⟩ := importSettingsRun_export_providers s defaultSettings true
  rw [hsp] at hrt
  have hs3e : s3.serviceProviders = [] := by rw [hs3]; rfl
  -- the decoded official account list
  have hoffdocs :
      (((offAccs.map Account.official).map (exportOfficialAccountDoc true)).map
          (officialFromDoc true))
        = offAccs.map (fun c =>
            { c with authorization :=
                if jsTruthyOpt c.authorization then c.authorization else none }) := by
    rw [List.map_map, List.map_map]
    exact List.map_congr_left (fun c hc => officialFromDoc_export c (hAuthBytes c hc))
  -- state after the official provider doc
  have h4 : (processProviderDoc true ((s3 : AppSettings), (0 : Nat), (0 : Nat))
        (exportProviderDoc true
          ⟨oid, ProviderType.claude_official, oname,
           offAccs.map Account.official, oactive, ouse⟩)).1
      = updateClaudeAccounts s3 (offAccs.map (fun c =>
          { c with authorization :=
              if jsTruthyOpt c.authorization then c.authorization else none })) := by
    show updateClaudeAccounts s3
        (((offAccs.map Account.official).map (exportOfficialAccountDoc true)).map
          (officialFromDoc true)) = _
    rw [hoffdocs]
  have hne2 : ∀ c ∈ offAccs.map (fun c =>
      { c with authorization :=
          if jsTruthyOpt c.authorization then c.authorization else none }),
      c.emailAddress ≠ [] := by
    intro c hc
    rcases List.mem_map.mp hc with ⟨c0, hc0, rfl⟩
    exact hEmailsNe c0 hc0
  have hnd2 : ((offAccs.map (fun c =>
      { c with authorization :=
          if jsTruthyOpt c.authorization then c.authorization else none })).map
        (fun c => c.emailAddress)).Nodup := by
    have hmm : (offAccs.map (fun c =>
        { c with authorization :=
            if jsTruthyOpt c.authorization then c.authorization else none })).map
          (fun c => c.emailAddress) = offAccs.map (fun c => c.emailAddress) := by
      rw [List.map_map]
      exact List.map_congr_left (fun c _ => rfl)
    rw [hmm]
    exact hEmailsNodup
  have h5 := updateClaudeAccounts_fresh s3
    (offAccs.map (fun c =>
      { c with authorization :=
          if jsTruthyOpt c.authorization then c.authorization else none }))
    (by unfold findOfficial; rw [hs3e]; rfl)
    (by rw [hs3e]; simp)
    hnd2 hne2
  rw [hs3e, List.nil_append] at h5
  -- the official provider record, in conclusion form
  have hP1accs : (offAccs.map (fun c =>
      { c with authorization :=
          if jsTruthyOpt c.authorization then c.authorization else none })).map
        Account.official
      = offAccs.map (fun c => Account.official
          { c with authorization :=
              if jsTruthyOpt c.authorization then c.authorization else none }) := by
    rw [List.map_map]
    exact List.map_congr_left (fun c _ => rfl)
  have hP1act : headEmail (offAccs.map (fun c =>
      { c with authorization :=
          if jsTruthyOpt c.authorization then c.authorization else none }))
      = headEmail offAccs := by
    cases offAccs with
    | nil => rfl
    | cons c rest => rfl
  rw [hP1accs, hP1act] at h5
  -- validity of exported third-party entries
  have hTD : ∀ d ∈ ((t0 :: trest).map Account.thirdParty).map (exportThirdAccountDoc true),
      jsTruthy d.id ∧ jsTruthy d.name ∧ jsTruthy d.baseUrl := by
    intro d hd
    rw [List.map_map] at hd
    rcases List.mem_map.mp hd with ⟨t, ht, rfl⟩
    rcases hTpValid t ht with ⟨h1, h2, h3⟩
    refine ⟨?_, ?_, ?_⟩
    · exact (jsTruthy_iff _).mpr (by simpa [Function.comp, exportThirdAccountDoc] using h1)
    · exact (jsTruthy_iff _).mpr (by simpa [Function.comp, exportThirdAccountDoc] using h2)
    · exact (jsTruthy_iff _).mpr (by simpa [Function.comp, exportThirdAccountDoc] using h3)
  -- the state after both provider docs
  have h6 : (importSettingsRun (exportSettingsDoc s true) defaultSettings).2
      = (((t0 :: trest).map Account.thirdParty).map (exportThirdAccountDoc true)).foldl
          (fun s2 d => addThirdPartyAccount s2 tid (thirdFromDoc true d))
          (updateClaudeAccounts s3 (offAccs.map (fun c =>
            { c with authorization :=
                if jsTruthyOpt c.authorization then c.authorization else none }))) := by
    rw [hrt]
    show ((((t0 :: trest).map Account.thirdParty).map (exportThirdAccountDoc true)).foldl
        (fun acc d => processThirdEntry true tid d acc)
        (processProviderDoc true ((s3 : AppSettings), (0 : Nat), (0 : Nat))
          (exportProviderDoc true
            ⟨oid, ProviderType.claude_official, oname,
             offAccs.map Account.official, oactive, ouse⟩))).1 = _
    rw [processThird_fold_state true tid _ hTD, h4]
  -- replace the doc fold by the account fold
  have h7 : (((t0 :: trest).map Account.thirdParty).map (exportThirdAccountDoc true)).foldl
        (fun s2 d => addThirdPartyAccount s2 tid (thirdFromDoc true d))
        (updateClaudeAccounts s3 (offAccs.map (fun c =>
          { c with authorization :=
              if jsTruthyOpt c.authorization then c.authorization else none })))
      = ((t0 :: trest).map (fun t =>
            { t with description := some (t.description.getD []) })).foldl
          (fun s2 t => addThirdPartyAccount s2 tid t)
          (updateClaudeAccounts s3 (offAccs.map (fun c =>
            { c with authorization :=
                if jsTruthyOpt c.authorization then c.authorization else none }))) := by
    rw [List.map_map, List.foldl_map, List.foldl_map]
    refine List.foldl_ext _ _ _ ?_
    intro acc t ht
    rw [show (exportThirdAccountDoc true ∘ Account.thirdParty) t
        = exportThirdAccountDoc true (Account.thirdParty t) from rfl,
      thirdFromDoc_export t (hKeyBytes t ht)]
  rw [h7] at h6
  -- the third-party provider is created fresh (no id collision)
  have hfid : findProviderById (updateClaudeAccounts s3 (offAccs.map (fun c =>
      { c with authorization :=
          if jsTruthyOpt c.authorization then c.authorization else none }))) tid = none := by
    unfold findProviderById
    rw [h5]
    apply find_id_eq_none
    intro p hp
    rw [List.mem_singleton] at hp
    subst hp
    intro hcon
    exact hTpId hcon.symm
  have h8 : (addThirdPartyAccount
        (updateClaudeAccounts s3 (offAccs.map (fun c =>
          { c with authorization :=
              if jsTruthyOpt c.authorization then c.authorization else none })))
        tid { t0 with description := some (t0.description.getD []) }).serviceProviders
      = [{ id := claudeOfficialId, type := ProviderType.claude_official
           name := claudeOfficialName
           accounts := offAccs.map (fun c => Account.official
             { c with authorization :=
                 if jsTruthyOpt c.authorization then c.authorization else none })
           activeAccountId := headEmail offAccs
           useProxy := true }]
        ++ [{ id := tid, type := ProviderType.third_party, name := t0.name
              accounts := [Account.thirdParty
                { t0 with description := some (t0.description.getD []) }]
              activeAccountId := t0.id, useProxy := true }] := by
    rw [addThirdPartyAccount_providers_none _ tid hfid _, h5]
    refine upsertById_of_no_match _ _ ?_
    intro p hp
    rw [List.mem_singleton] at hp
    subst hp
    intro hcon
    exact hTpId hcon.symm
  have h9 := fold_addThird_build tid
    [{ id := claudeOfficialId, type := ProviderType.claude_official
       name := claudeOfficialName
       accounts := offAccs.map (fun c => Account.official
         { c with authorization :=
             if jsTruthyOpt c.authorization then c.authorization else none })
       activeAccountId := headEmail offAccs
       useProxy := true }]
    { t0 with description := some (t0.description.getD []) }
    (by
      intro p hp
      rw [List.mem_singleton] at hp
      subst hp
      intro hcon
      exact hTpId hcon.symm)
    ((hTpValid t0 (by simp)).1)
    (trest.map (fun t => { t with description := some (t.description.getD []) }))
    [{ t0 with description := some (t0.description.getD []) }]
    (addThirdPartyAccount
      (updateClaudeAccounts s3 (offAccs.map (fun c =>
        { c with authorization :=
            if jsTruthyOpt c.authorization then c.authorization else none })))
      tid { t0 with description := some (t0.description.getD []) })
    h8
    (by
      intro t ht t2 ht2
      rw [List.mem_singleton] at ht2
      subst ht2
      rcases List.mem_map.mp ht with ⟨t1, ht1, rfl⟩
      intro hcon
      exact (List.nodup_cons.mp hIdsNodup).1
        (List.mem_map.mpr ⟨t1, ht1, hcon.symm⟩))
    (by
      have hmm : (trest.map (fun t =>
          { t with description := some (t.description.getD []) })).map (fun t => t.id)
          = trest.map (fun t => t.id) := by
        rw [List.map_map]
        exact List.map_congr_left (fun t _ => rfl)
      rw [hmm]
      exact hIdsNodup.of_cons)
  have hfinal : (importSettingsRun (exportSettingsDoc s true) defaultSettings).2.serviceProviders
      = [{ id := claudeOfficialId, type := ProviderType.claude_official
           name := claudeOfficialName
           accounts := offAccs.map (fun c => Account.official
             { c with authorization :=
                 if jsTruthyOpt c.authorization then c.authorization else none })
           activeAccountId := headEmail offAccs
           useProxy := true },
         { id := tid, type := ProviderType.third_party, name := t0.name
           accounts := (t0 :: trest).map (fun t => Account.thirdParty
             { t with description := some (t.description.getD []) })
           activeAccountId := t0.id
           useProxy := true }] := by
    rw [h6]
    show ((trest.map (fun t => { t with description := some (t.description.getD []) })).foldl
        (fun s2 t => addThirdPartyAccount s2 tid t)
        (addThirdPartyAccount
          (updateClaudeAccounts s3 (offAccs.map (fun c =>
            { c with authorization :=
                if jsTruthyOpt c.authorization then c.authorization else none })))
          tid { t0 with description := some (t0.description.getD []) })).serviceProviders = _
    rw [h9]
    have hq : ([({ t0 with description := some (t0.description.getD []) } : ThirdPartyAccount)]
          ++ trest.map (fun (t : ThirdPartyAccount) =>
               { t with description := some (t.description.getD []) })).map
          Account.thirdParty
        = (t0 :: trest).map (fun t => Account.thirdParty
            { t with description := some (t.description.getD []) }) := by
      show ((t0 :: trest).map (fun (t : ThirdPartyAccount) =>
          { t with description := some (t.description.getD []) })).map Account.thirdParty = _
      rw [List.map_map]
      exact List.map_congr_left (fun t _ => rfl)
    rw [hq]
    rfl
  refine ⟨fun bs hb => decodeData_encodeData bs hb, ?_, ?_⟩
  · unfold findOfficial
    rw [hfinal]
    exact List.find?_cons_of_pos _ (by simp)
  · unfold findProviderById
    rw [hfinal]
    rw [List.find?_cons_of_neg _ ?_]
    · exact List.find?_cons_of_pos _ (by simp)
    · simp only [decide_eq_true_eq]
      intro hcon
      exact hTpId hcon.symm

/-- Witness for `claim_C2_amended` at a concrete two-provider registry. -/
theorem claim_C2_amended_witness :
    (∀ bs : Str, allBytes bs → decodeData (encodeData bs) = bs)
  ∧ findOfficial ((importSettingsRun (exportSettingsDoc c2WState true) defaultSettings).2)
      = some { id := claudeOfficialId, type := ProviderType.claude_official
               name := claudeOfficialName
               accounts := [accT].map (fun c => Account.official
                 { c with authorization :=
                     if jsTruthyOpt c.authorization then c.authorization else none })
               activeAccountId := headEmail [accT]
               useProxy := true }
  ∧ findProviderById ((importSettingsRun (exportSettingsDoc c2WState true) defaultSettings).2)
        tpW.id
      = some { id := tpW.id, type := ProviderType.third_party
               name := tpAcc1.name
               accounts := [tpAcc1].map (fun t => Account.thirdParty
                 { t with description := some (t.description.getD []) })
               activeAccountId := tpAcc1.id
               useProxy := true } :=
  claim_C2_amended c2WState offW tpW [accT] tpAcc1 []
    (by decide) (by decide) (by decide) (by decide) (by decide) (by decide)
    (by decide) (by decide)
    (by
      intro c hc v hv
      rw [List.mem_singleton] at hc
      subst hc
      have hv2 : some (strOf "T") = some v := hv
      rw [Option.some.injEq] at hv2
      subst hv2
      decide)
    (by decide) (by decide) (by decide)

end SettingsTs
